import Mathlib

/-!
# NifOsg animation controllers: time function and per-frame evaluators

A shallow embedding of `components/nifosg/controller.cpp`: the time function
`ControllerFunction::calculate`, `VisController::calculate`,
`PathController::getPercent` and `FlipController::apply`, with the properties
proved of them.

Numbers.  The source computes with `float`.  Two readings are used.  In the
exact reading every `float` is a rational (`ℚ`) and the arithmetic is the ideal
one, without rounding, infinities or NaN; `calculate`, `getPercent` and the
controllers are embedded that way.  In the binary32 reading (`roundF32`,
`calculateF32`, `getPercentF32`) the result of every `float` operation is
rounded to the nearest binary32 number, ties to even, each operation on its
own; it is used where rounding decides the property: the Cycle and Reverse
branches of `calculate` and the range of `getPercent`.  `std::floor` is
`Int.floor`, `std::fabs` is `|·|`, `std::clamp(v, lo, hi)` is
`min (max v lo) hi`.  The conversion of a floating value to `int` is exact
truncation toward zero, which is the source's conversion for the values in the
range of `int` (`inIntRange`), and the conversion of an `int` to `std::size_t`
is reduction modulo `2^64`.
-/

namespace NifOsg

/-! ## ControllerFunction -/

/-- The extrapolation mode of a controller record.  The source's `switch` has
the three labelled cases below; its `default:` label shares the body of
`Constant`. -/
inductive ExtrapolationMode where
  | Cycle
  | Reverse
  | Constant
  deriving DecidableEq, Repr

/-- The five members of `ControllerFunction`, copied from the controller
record by the constructor. -/
structure ControllerFunction where
  mFrequency : ℚ
  mPhase : ℚ
  mStartTime : ℚ
  mStopTime : ℚ
  mExtrapolationMode : ExtrapolationMode

/-- The conversion `static_cast<int>(x)` / `int(x)` of a floating value:
truncation toward zero.  The source's `int` is 32 bits wide and the conversion
is only defined when the truncated value fits; the embedding keeps the exact
integer. -/
def toInt (x : ℚ) : ℤ :=
  if 0 ≤ x then ⌊x⌋ else ⌈x⌉

/-- The values whose conversion to the 32-bit `int` of the source is defined:
the truncated value lies in `[-2^31, 2^31 - 1]`.  On this range `toInt` is the
conversion the code performs. -/
abbrev inIntRange (x : ℚ) : Prop :=
  -2 ^ 31 - 1 < x ∧ x < 2 ^ 31

/-- The function `std::clamp(v, lo, hi)` as libstdc++ implements it,
`std::min(std::max(v, lo), hi)`.  For `lo ≤ hi` this is the Returns clause of
the standard: `lo` if `v < lo`, `hi` if `hi < v`, otherwise `v`.  A call with
`hi < lo` is outside the precondition of `std::clamp`. -/
def clamp (v lo hi : ℚ) : ℚ :=
  min (max v lo) hi

/-- The first statement of `calculate`: `mFrequency * value + mPhase`. -/
def ControllerFunction.time (f : ControllerFunction) (value : ℚ) : ℚ :=
  f.mFrequency * value + f.mPhase

/-- The method `ControllerFunction::calculate`. -/
def ControllerFunction.calculate (f : ControllerFunction) (value : ℚ) : ℚ :=
  let time := f.mFrequency * value + f.mPhase
  if time ≥ f.mStartTime ∧ time ≤ f.mStopTime then time
  else
    match f.mExtrapolationMode with
    | ExtrapolationMode.Cycle =>
      let delta := f.mStopTime - f.mStartTime
      if delta ≤ 0 then f.mStartTime
      else
        let cycles := (time - f.mStartTime) / delta
        let remainder := (cycles - (⌊cycles⌋ : ℚ)) * delta
        f.mStartTime + remainder
    | ExtrapolationMode.Reverse =>
      let delta := f.mStopTime - f.mStartTime
      if delta ≤ 0 then f.mStartTime
      else
        let cycles := (time - f.mStartTime) / delta
        let remainder := (cycles - (⌊cycles⌋ : ℚ)) * delta
        if (toInt |(⌊cycles⌋ : ℚ)|).tmod 2 = 0 then f.mStartTime + remainder
        else f.mStopTime - remainder
    | ExtrapolationMode.Constant => clamp time f.mStartTime f.mStopTime

/-! ### Binary32 rounding

A `float` operation returns its exact result rounded to the nearest binary32
value, ties to even.  `calculateF32` repeats `calculate` with that rounding
after every operation, for the properties that rounding decides. -/

/-- The integer nearest to `x`, a tie going to the even neighbour. -/
def roundHalfEven (x : ℚ) : ℤ :=
  if x - ⌊x⌋ < 1 / 2 then ⌊x⌋
  else if 1 / 2 < x - ⌊x⌋ then ⌊x⌋ + 1
  else if ⌊x⌋ % 2 = 0 then ⌊x⌋
  else ⌊x⌋ + 1

/-- The exponent of the spacing of binary32 values at `x`: `floor(log2 |x|) - 23`
with 24 significant bits, and `-149` throughout the subnormal range. -/
def ulpExponent (x : ℚ) : ℤ :=
  max (Int.log 2 |x|) (-126) - 23

/-- The binary32 value nearest to `x`, ties to even: the rounding of every
`float` operation.  Overflow to infinity is not modelled: the value is the
operation's result for `|x| ≤ maxF32`. -/
def roundF32 (x : ℚ) : ℚ :=
  roundHalfEven (x / 2 ^ ulpExponent x) * 2 ^ ulpExponent x

/-- The first statement of `calculate` in binary32: the product is rounded, then
the sum. -/
def ControllerFunction.timeF32 (f : ControllerFunction) (value : ℚ) : ℚ :=
  roundF32 (roundF32 (f.mFrequency * value) + f.mPhase)

/-- The method `ControllerFunction::calculate` in binary32 arithmetic: every
`float` operation is rounded on its own; `std::floor`, `std::fabs` and the
comparisons are exact. -/
def ControllerFunction.calculateF32 (f : ControllerFunction) (value : ℚ) : ℚ :=
  let time := roundF32 (roundF32 (f.mFrequency * value) + f.mPhase)
  if time ≥ f.mStartTime ∧ time ≤ f.mStopTime then time
  else
    match f.mExtrapolationMode with
    | ExtrapolationMode.Cycle =>
      let delta := roundF32 (f.mStopTime - f.mStartTime)
      if delta ≤ 0 then f.mStartTime
      else
        let cycles := roundF32 (roundF32 (time - f.mStartTime) / delta)
        let remainder := roundF32 (roundF32 (cycles - (⌊cycles⌋ : ℚ)) * delta)
        roundF32 (f.mStartTime + remainder)
    | ExtrapolationMode.Reverse =>
      let delta := roundF32 (f.mStopTime - f.mStartTime)
      if delta ≤ 0 then f.mStartTime
      else
        let cycles := roundF32 (roundF32 (time - f.mStartTime) / delta)
        let remainder := roundF32 (roundF32 (cycles - (⌊cycles⌋ : ℚ)) * delta)
        if (toInt |(⌊cycles⌋ : ℚ)|).tmod 2 = 0 then roundF32 (f.mStartTime + remainder)
        else roundF32 (f.mStopTime - remainder)
    | ExtrapolationMode.Constant => clamp time f.mStartTime f.mStopTime

/-- The local `cycles` of the Cycle and Reverse branches of `calculate`, as a
function of the mapped time `t`: `(time - mStartTime) / delta`. -/
def ControllerFunction.cycles (f : ControllerFunction) (t : ℚ) : ℚ :=
  (t - f.mStartTime) / (f.mStopTime - f.mStartTime)

/-- The local `remainder` of the Cycle and Reverse branches of `calculate`, as a
function of the mapped time `t`: `(cycles - std::floor(cycles)) * delta`. -/
def ControllerFunction.remainder (f : ControllerFunction) (t : ℚ) : ℚ :=
  (f.cycles t - (⌊f.cycles t⌋ : ℚ)) * (f.mStopTime - f.mStartTime)

/-- Auxiliary: the value the Reverse branch of `calculate` returns in exact
arithmetic, written as a function of the mapped time `t`. -/
def ControllerFunction.reflected (f : ControllerFunction) (t : ℚ) : ℚ :=
  if Even ⌊f.cycles t⌋ then f.mStartTime + f.remainder t else f.mStopTime - f.remainder t

/-- Auxiliary: the triangle wave of period 2 on the cycle count, rising on
`[0, 1]` and falling on `[1, 2]`. -/
def triangle (c : ℚ) : ℚ :=
  if Even ⌊c⌋ then Int.fract c else 1 - Int.fract c

/-- Auxiliary: the value the Cycle branch of `calculate` returns in exact
arithmetic, written as a function of the mapped time `t` with `Int.fract` for
`cycles - floor(cycles)`. -/
def ControllerFunction.wrapped (f : ControllerFunction) (t : ℚ) : ℚ :=
  f.mStartTime
    + Int.fract ((t - f.mStartTime) / (f.mStopTime - f.mStartTime)) * (f.mStopTime - f.mStartTime)

/-- The largest finite binary32 value, `(2^24 - 1) * 2^104`. -/
def maxF32 : ℚ :=
  (2 ^ 24 - 1) * 2 ^ 104

/-- Auxiliary: `x` is a finite binary32 value, so that a `float` operation whose
exact result is `x` returns `x`: it neither rounds nor overflows. -/
abbrev exactF32 (x : ℚ) : Prop :=
  |x| ≤ maxF32 ∧ roundF32 x = x

/-- Auxiliary: the first statement of `calculate` does not overflow at `value`:
the product and the sum stay within the finite binary32 range, where `timeF32`
is the mapped time the code computes. -/
abbrev ControllerFunction.timeFinite (f : ControllerFunction) (value : ℚ) : Prop :=
  |f.mFrequency * value| ≤ maxF32 ∧ |roundF32 (f.mFrequency * value) + f.mPhase| ≤ maxF32

/-- Auxiliary: no binary32 operation of the Cycle branch of `calculate` rounds or
overflows at the mapped time `t`: `delta`, `time - mStartTime`, `cycles`,
`cycles - std::floor(cycles)`, `remainder` and `mStartTime + remainder` are each
finite binary32 values. -/
abbrev ControllerFunction.cycleStepsExact (f : ControllerFunction) (t : ℚ) : Prop :=
  exactF32 (f.mStopTime - f.mStartTime) ∧
  exactF32 (t - f.mStartTime) ∧
  exactF32 (f.cycles t) ∧
  exactF32 (f.cycles t - (⌊f.cycles t⌋ : ℚ)) ∧
  exactF32 (f.remainder t) ∧
  exactF32 (f.mStartTime + f.remainder t)

/-- Auxiliary: no binary32 operation of the Reverse branch of `calculate` rounds
or overflows at the mapped time `t`: `delta`, `time - mStartTime`, `cycles`,
`cycles - std::floor(cycles)`, `remainder` and the returned sum or difference
are each finite binary32 values, and the operand of `static_cast<int>` is in the
range of `int`. -/
abbrev ControllerFunction.reverseStepsExact (f : ControllerFunction) (t : ℚ) : Prop :=
  exactF32 (f.mStopTime - f.mStartTime) ∧
  exactF32 (t - f.mStartTime) ∧
  exactF32 (f.cycles t) ∧
  exactF32 (f.cycles t - (⌊f.cycles t⌋ : ℚ)) ∧
  exactF32 (f.remainder t) ∧
  exactF32 (f.reflected t) ∧
  inIntRange |(⌊f.cycles t⌋ : ℚ)|

/-- The method `ControllerFunction::getMaximum`. -/
def ControllerFunction.getMaximum (f : ControllerFunction) : ℚ :=
  f.mStopTime

/-- The function `std::fmod(x, y)`: `x - n * y`, where `n` is `x / y` with its
fractional part cut off; the result has the sign of `x`. -/
def fmod (x y : ℚ) : ℚ :=
  x - (toInt (x / y) : ℚ) * y

/-! ## Interpolators and the controller base

Both are declared in headers that are not among the sources read here; they
are modelled from the specification. -/

/-- Modelled from the spec: `Interpolator<V>` (the class template behind
`FloatInterpolator`, `Vec3Interpolator`, `ByteInterpolator`), missing from the
sources.  A handle on a time-sorted key sequence `mKeys` of `(time, value)`
pairs, a typed default value `mDefaultVal`, and the interpolation-kind-specific
blend of a bracketing pair, taken as the field `blend`. -/
structure ValueInterpolator (V : Type) where
  mKeys : List (ℚ × V)
  mDefaultVal : V
  blend : ℚ × V → ℚ × V → ℚ → V

/-- Modelled from the spec: `empty()` is true iff the underlying sequence has
no keys. -/
def ValueInterpolator.empty {V : Type} (i : ValueInterpolator V) : Bool :=
  i.mKeys.isEmpty

/-- Modelled from the spec: the bracketing pair `(a, b)` with
`a.time ≤ t < b.time`; on ties the second key wins. -/
def ValueInterpolator.bracket {V : Type} (t : ℚ) : List (ℚ × V) → Option ((ℚ × V) × (ℚ × V))
  | a :: b :: rest => if t < b.1 then some (a, b) else ValueInterpolator.bracket t (b :: rest)
  | _ => none

/-- Modelled from the spec: `interpKey(t)`: the default when the sequence is
empty; the first value if `t ≤ first.time`; the last value if
`t ≥ last.time`; otherwise the blend of the bracketing pair. -/
def ValueInterpolator.interpKey {V : Type} (i : ValueInterpolator V) (t : ℚ) : V :=
  match i.mKeys.head?, i.mKeys.getLast? with
  | some first, some last =>
    if t ≤ first.1 then first.2
    else if t ≥ last.1 then last.2
    else
      match ValueInterpolator.bracket t i.mKeys with
      | some (a, b) => i.blend a b t
      | none => last.2
  | _, _ => i.mDefaultVal

/-- Modelled from the spec: the Linear blend of float keys,
`lerp(a.value, b.value, (t - a.time)/(b.time - a.time))`. -/
def lerp (a b : ℚ × ℚ) (t : ℚ) : ℚ :=
  a.2 + (b.2 - a.2) * ((t - a.1) / (b.1 - a.1))

/-- Modelled from the spec: the blend of Bool/byte keys and of the Constant
kind: piecewise-constant, the value of the earlier key of the bracketing
pair. -/
def step {V : Type} (a _b : ℚ × V) (_t : ℚ) : V :=
  a.2

/-- The float instance of the interpolator. -/
abbrev FloatInterpolator := ValueInterpolator ℚ

/-- The 3-vector instance of the interpolator. -/
abbrev Vec3Interpolator := ValueInterpolator (ℚ × ℚ × ℚ)

/-- The byte instance of the interpolator. -/
abbrev ByteInterpolator := ValueInterpolator ℕ

/-- Modelled from the spec: the controller base (`SceneUtil::Controller`),
missing from the sources: an optional input source and the time function.
`mSource` holds the raw value the bound source yields on the current visit,
or `none` when no source is bound. -/
structure Controller where
  mSource : Option ℚ
  mFunction : ControllerFunction

/-- Modelled from the spec: `hasInput()` is true iff an input source is
bound. -/
def Controller.hasInput (c : Controller) : Bool :=
  c.mSource.isSome

/-- Modelled from the spec: `getInputValue(visit)` is the time function applied
to the sample of the input source.  The callers guard it by `hasInput()`; the
value without a source is a placeholder. -/
def Controller.getInputValue (c : Controller) : ℚ :=
  match c.mSource with
  | some value => c.mFunction.calculate value
  | none => 0

/-! ## VisController -/

/-- One entry of the legacy visibility list: `(time, isSet)`. -/
structure VisKey where
  time : ℚ
  isSet : Bool

/-- The members of `VisController`. -/
structure VisController extends Controller where
  mData : List VisKey
  mInterpolator : ByteInterpolator
  mMask : ℕ

/-- The loop of `VisController::calculate` from index `i` on: `prev` is
`mData[i - 1]` and the list holds `mData[i], mData[i + 1], ...`.  When the list
runs out, `prev` is `mData.back()`. -/
def VisController.scan (time : ℚ) : VisKey → List VisKey → Bool
  | prev, [] => prev.isSet
  | prev, key :: rest => if key.time > time then prev.isSet else VisController.scan time key rest

/-- The method `VisController::calculate`. -/
def VisController.calculate (c : VisController) (time : ℚ) : Bool :=
  if c.mInterpolator.empty = false then c.mInterpolator.interpKey time != 0
  else
    match c.mData with
    | [] => true
    | first :: rest => VisController.scan time first rest

/-- The method `VisController::operator()` as a function of the node mask
(`unsigned int`, so `~0` is `2^32 - 1`); the traversal of the children is left
to the scene graph. -/
def VisController.operator (c : VisController) (nodeMask : ℕ) : ℕ :=
  if c.hasInput then
    let vis := c.calculate c.getInputValue
    if vis then 2 ^ 32 - 1 else c.mMask
  else nodeMask

/-! ## PathController -/

/-- The members of `PathController`. -/
structure PathController extends Controller where
  mPath : Vec3Interpolator
  mPercent : FloatInterpolator
  mFlags : ℕ

/-- The method `PathController::getPercent`. -/
def PathController.getPercent (c : PathController) (time : ℚ) : ℚ :=
  let percent := c.mPercent.interpKey time
  if percent < 0 then fmod percent 1 + 1
  else if percent > 1 then fmod percent 1
  else percent

/-- The method `PathController::getPercent` in binary32 arithmetic: the sum
`std::fmod(percent, 1.f) + 1.f` is rounded; `std::fmod` and the comparisons are
exact. -/
def PathController.getPercentF32 (c : PathController) (time : ℚ) : ℚ :=
  let percent := c.mPercent.interpKey time
  if percent < 0 then roundF32 (fmod percent 1 + 1)
  else if percent > 1 then fmod percent 1
  else percent

/-! ## FlipController -/

/-- The part of `osg::StateSet` the flip controller touches: the texture
attribute bound to each texture unit. -/
structure StateSet (Tex : Type) where
  textureAttribute : ℕ → Option Tex

/-- The call `stateset->setTextureAttribute(unit, texture)`. -/
def StateSet.setTextureAttribute {Tex : Type} (s : StateSet Tex) (unit : ℕ) (texture : Tex) :
    StateSet Tex :=
  { s with textureAttribute := fun u => if u = unit then some texture else s.textureAttribute u }

/-- The conversion of an `int` to `std::size_t` (64 bits), which the usual
arithmetic conversions apply to the left operand of `% mTextures.size()`:
the value modulo `2^64`. -/
def toSizeT (i : ℤ) : ℕ :=
  (i % 2 ^ 64).toNat

/-- The members of `FlipController`. -/
structure FlipController (Tex : Type) extends Controller where
  mTexSlot : ℕ
  mDelta : ℚ
  mTextures : List Tex
  mData : FloatInterpolator

/-- The expression `int(x) % mTextures.size()` for a list of `n` textures: `x`
is truncated to `int`, converted to `std::size_t` and reduced modulo `n`. -/
def intModSize (x : ℚ) (n : ℕ) : ℕ :=
  toSizeT (toInt x) % n

/-- The index in the words of the specification: `floor(x) mod n`. -/
def floorModAsSpecified (x : ℚ) (n : ℕ) : ℕ :=
  (⌊x⌋ % (n : ℤ)).toNat

/-- The local `curTexture` of `FlipController::apply`, as assigned in the
branch on `mDelta`. -/
def FlipController.curTexture {Tex : Type} (c : FlipController Tex) : ℕ :=
  if c.mDelta ≠ 0 then intModSize (c.getInputValue / c.mDelta) c.mTextures.length
  else intModSize (c.mData.interpKey c.getInputValue) c.mTextures.length

/-- A float interpolator that was never assigned: no keys, default value 0. -/
def noInterpolator : FloatInterpolator :=
  ⟨[], 0, lerp⟩

/-- The flip controller of scenario S4 of the specification: textures
`[A, B, C]` on slot 0, an input source yielding `t` under a time function that
leaves every time in `[-10, 10]` unchanged, and the given `delta` and
interpolator. -/
def scenarioFlip (t delta : ℚ) (data : FloatInterpolator) : FlipController String :=
  ⟨⟨some t, ⟨1, 0, -10, 10, ExtrapolationMode.Constant⟩⟩, 0, delta, ["A", "B", "C"], data⟩

/-- A state set with no texture attribute bound. -/
def emptyStateSet : StateSet String :=
  ⟨fun _ => none⟩

/-- The method `FlipController::apply`. -/
def FlipController.apply {Tex : Type} (c : FlipController Tex) (stateset : StateSet Tex) :
    StateSet Tex :=
  if h : c.hasInput = true ∧ c.mTextures.isEmpty = false then
    stateset.setTextureAttribute c.mTexSlot
      (c.mTextures.get ⟨c.curTexture, by
        unfold FlipController.curTexture intModSize
        split <;> exact Nat.mod_lt _ (List.length_pos.mpr (by simpa using h.2))⟩)
  else stateset

/-! ## Transform targets and KeyframeController

The scene-graph node classes and `osg::Quat` are declared outside the sources
read here.  A node is represented by the setter calls it has received. -/

/-- The unit axes `osg::X_AXIS`, `osg::Y_AXIS`, `osg::Z_AXIS`. -/
inductive Axis where
  | X
  | Y
  | Z
  deriving DecidableEq, Repr

/-- The 3-vector `osg::Vec3f`. -/
abbrev Vec3f := ℚ × ℚ × ℚ

/-- One mutator call on a transform node.  `Q` is the quaternion type and `M`
the type of the 3×3 rest matrix; `setRotation` is overloaded on both. -/
inductive TransformWrite (Q M : Type) where
  | setRotationQuat (rotation : Q)
  | setRotationMatrix (rotation : M)
  | setScale (scale : ℚ)
  | setTranslation (translation : Vec3f)
  | preMultRotate (angle : ℚ) (x y z : ℚ)

/-- Modelled from the spec: the TransformTarget (`NifOsg::MatrixTransform`),
missing from the sources: a scene node exposing set-rotation, set-translation
and set-scale and holding a rest rotation `mRotationScale`.  `writes` lists the
mutator calls the node has received, oldest first. -/
structure MatrixTransform (Q M : Type) where
  mRotationScale : M
  writes : List (TransformWrite Q M)

/-- The call `node->setRotation(rotation)` with a quaternion. -/
def MatrixTransform.setRotationQuat {Q M : Type} (node : MatrixTransform Q M) (rotation : Q) :
    MatrixTransform Q M :=
  { node with writes := node.writes ++ [TransformWrite.setRotationQuat rotation] }

/-- The call `node->setRotation(rotation)` with a 3×3 matrix. -/
def MatrixTransform.setRotationMatrix {Q M : Type} (node : MatrixTransform Q M) (rotation : M) :
    MatrixTransform Q M :=
  { node with writes := node.writes ++ [TransformWrite.setRotationMatrix rotation] }

/-- The call `node->setScale(scale)`. -/
def MatrixTransform.setScale {Q M : Type} (node : MatrixTransform Q M) (scale : ℚ) :
    MatrixTransform Q M :=
  { node with writes := node.writes ++ [TransformWrite.setScale scale] }

/-- The call `node->setTranslation(translation)`. -/
def MatrixTransform.setTranslation {Q M : Type} (node : MatrixTransform Q M)
    (translation : Vec3f) : MatrixTransform Q M :=
  { node with writes := node.writes ++ [TransformWrite.setTranslation translation] }

/-- The call `node->preMult(osg::Matrix::rotate(angle, x, y, z))`. -/
def MatrixTransform.preMultRotate {Q M : Type} (node : MatrixTransform Q M)
    (angle x y z : ℚ) : MatrixTransform Q M :=
  { node with writes := node.writes ++ [TransformWrite.preMultRotate angle x y z] }

/-- The axis-order tag `Nif::NiKeyframeData::AxisOrder`.  `Other` stands for a
stored value that is none of the nine enumerators; the `switch` of
`getXYZRotation` has no case for it and falls through to the final `return`. -/
inductive AxisOrder where
  | Order_XYZ
  | Order_XZY
  | Order_YZX
  | Order_YXZ
  | Order_ZXY
  | Order_ZYX
  | Order_XYX
  | Order_YZY
  | Order_ZXZ
  | Other (tag : ℕ)
  deriving DecidableEq, Repr

/-- The members of `KeyframeController`, over a quaternion type `Q`. -/
structure KeyframeController (Q : Type) extends Controller where
  mRotations : ValueInterpolator Q
  mXRotations : FloatInterpolator
  mYRotations : FloatInterpolator
  mZRotations : FloatInterpolator
  mTranslations : Vec3Interpolator
  mScales : FloatInterpolator
  mAxisOrder : AxisOrder

/-- The method `KeyframeController::getXYZRotation`.  The quaternion product is
the `Mul` of `Q`, and the constructor `osg::Quat(angle, axis)` is the parameter
`makeRotate`. -/
def KeyframeController.getXYZRotation {Q : Type} [Mul Q] (makeRotate : ℚ → Axis → Q)
    (c : KeyframeController Q) (time : ℚ) : Q :=
  let xrot := if c.mXRotations.empty = false then c.mXRotations.interpKey time else 0
  let yrot := if c.mYRotations.empty = false then c.mYRotations.interpKey time else 0
  let zrot := if c.mZRotations.empty = false then c.mZRotations.interpKey time else 0
  let xr := makeRotate xrot Axis.X
  let yr := makeRotate yrot Axis.Y
  let zr := makeRotate zrot Axis.Z
  match c.mAxisOrder with
  | AxisOrder.Order_XYZ => xr * yr * zr
  | AxisOrder.Order_XZY => xr * zr * yr
  | AxisOrder.Order_YZX => yr * zr * xr
  | AxisOrder.Order_YXZ => yr * xr * zr
  | AxisOrder.Order_ZXY => zr * xr * yr
  | AxisOrder.Order_ZYX => zr * yr * xr
  | AxisOrder.Order_XYX => xr * yr * xr
  | AxisOrder.Order_YZY => yr * zr * yr
  | AxisOrder.Order_ZXZ => zr * xr * zr
  | AxisOrder.Other _ => xr * yr * zr

/-- The method `KeyframeController::getTranslation`. -/
def KeyframeController.getTranslation {Q : Type} (c : KeyframeController Q) (time : ℚ) : Vec3f :=
  if c.mTranslations.empty = false then c.mTranslations.interpKey time else (0, 0, 0)

/-- The method `KeyframeController::operator()`; the traversal of the children
is left to the scene graph. -/
def KeyframeController.operator {Q M : Type} [Mul Q] (makeRotate : ℚ → Axis → Q)
    (c : KeyframeController Q) (node : MatrixTransform Q M) : MatrixTransform Q M :=
  if c.hasInput then
    let time := c.getInputValue
    let node1 :=
      if c.mRotations.empty = false then node.setRotationQuat (c.mRotations.interpKey time)
      else if c.mXRotations.empty = false ∨ c.mYRotations.empty = false
          ∨ c.mZRotations.empty = false then
        node.setRotationQuat (c.getXYZRotation makeRotate time)
      else node.setRotationMatrix node.mRotationScale
    let node2 :=
      if c.mScales.empty = false then node1.setScale (c.mScales.interpKey time) else node1
    if c.mTranslations.empty = false then node2.setTranslation (c.mTranslations.interpKey time)
    else node2
  else node

/-- The quaternions of the examples: words over `(axis, angle)` letters, with
concatenation as product, so that every order of factors is told apart. -/
abbrev WordQuat := FreeMonoid (Axis × ℚ)

/-- The constructor `osg::Quat(angle, axis)` of the examples: a one-letter
word. -/
def wordRotate (angle : ℚ) (axis : Axis) : WordQuat :=
  FreeMonoid.of (axis, angle)

/-- An example keyframe controller over word quaternions, with an input bound at
time 0: the quaternion stream samples `Z(1)`, the X stream samples 2, the scale
stream samples 3, and the Y, Z and translation streams are empty. -/
def exampleKeyframe : KeyframeController WordQuat :=
  ⟨⟨some 0, ⟨1, 0, 0, 10, ExtrapolationMode.Constant⟩⟩,
    ⟨[(0, wordRotate 1 Axis.Z)], wordRotate 0 Axis.X, step⟩, ⟨[(0, 2)], 0, lerp⟩,
    noInterpolator, noInterpolator, ⟨[], (0, 0, 0), step⟩, ⟨[(0, 3)], 1, lerp⟩,
    AxisOrder.Order_XYZ⟩

/-- An example of mixed axis order: order `XYX`, the X stream samples 2, the Y
stream is empty, the Z stream samples 5. -/
def exampleMixedOrder : KeyframeController WordQuat :=
  ⟨⟨none, ⟨1, 0, 0, 10, ExtrapolationMode.Constant⟩⟩,
    ⟨[], wordRotate 0 Axis.X, step⟩, ⟨[(0, 2)], 0, lerp⟩,
    noInterpolator, ⟨[(0, 5)], 0, lerp⟩, ⟨[], (0, 0, 0), step⟩, noInterpolator,
    AxisOrder.Order_XYX⟩

/-- An example transform node: rest rotation 7 (a stand-in value), no writes
received. -/
def exampleNode : MatrixTransform WordQuat ℕ :=
  ⟨7, []⟩

/-- The method `PathController::operator()`; the traversal of the children is
left to the scene graph. -/
def PathController.operator {Q M : Type} (c : PathController) (node : MatrixTransform Q M) :
    MatrixTransform Q M :=
  if c.mPath.empty = true ∨ c.mPercent.empty = true ∨ c.hasInput = false then node
  else
    let time := c.getInputValue
    let percent := c.getPercent time
    node.setTranslation (c.mPath.interpKey percent)

/-- The members of `RollController`. -/
structure RollController extends Controller where
  mData : FloatInterpolator
  mStartingTime : ℚ

/-- The method `RollController::operator()`, after the traversal of the
children: `simulationTime` is `nv->getFrameStamp()->getSimulationTime()`.  The
result is the controller with its updated `mStartingTime` and the node. -/
def RollController.operator {Q M : Type} (c : RollController) (simulationTime : ℚ)
    (node : MatrixTransform Q M) : RollController × MatrixTransform Q M :=
  if c.hasInput then
    let newTime := simulationTime
    let duration := newTime - c.mStartingTime
    let c1 := { c with mStartingTime := newTime }
    let value := c.mData.interpKey c.getInputValue
    (c1, node.preMultRotate (value * duration * 60) 0 0 1)
  else (c, node)

/-! ## Material controllers -/

/-- The colour `osg::Vec4f`, by its components `r()`, `g()`, `b()`, `a()`. -/
structure Vec4f where
  r : ℚ
  g : ℚ
  b : ℚ
  a : ℚ
  deriving DecidableEq

/-- The call `v.set(x, y, z, w)` on an `osg::Vec4f`. -/
def Vec4f.set (_v : Vec4f) (x y z w : ℚ) : Vec4f :=
  ⟨x, y, z, w⟩

/-- The part of `osg::Material` the controllers touch: the four colours, each
read and written for `FRONT_AND_BACK`. -/
structure Material where
  ambient : Vec4f
  diffuse : Vec4f
  specular : Vec4f
  emission : Vec4f
  deriving DecidableEq

/-- The members of `AlphaController`. -/
structure AlphaController extends Controller where
  mData : FloatInterpolator
  mBaseMaterial : Material

/-- The method `AlphaController::apply`, as a function of the material attribute
bound in the state set. -/
def AlphaController.apply (c : AlphaController) (mat : Material) : Material :=
  if c.hasInput then
    let value := c.mData.interpKey c.getInputValue
    let diffuse := mat.diffuse
    let diffuse := { diffuse with a := value }
    { mat with diffuse := diffuse }
  else mat

/-- The tag `MaterialColorController::TargetColor`.  `Other` stands for a stored
value that is none of the four enumerators; the `switch` of `apply` sends it to
its `default:` label. -/
inductive TargetColor where
  | Ambient
  | Diffuse
  | Specular
  | Emissive
  | Other (tag : ℕ)
  deriving DecidableEq, Repr

/-- The members of `MaterialColorController`. -/
structure MaterialColorController extends Controller where
  mData : Vec3Interpolator
  mTargetColor : TargetColor
  mBaseMaterial : Material

/-- The method `MaterialColorController::apply`, as a function of the material
attribute bound in the state set. -/
def MaterialColorController.apply (c : MaterialColorController) (mat : Material) : Material :=
  if c.hasInput then
    let value := c.mData.interpKey c.getInputValue
    match c.mTargetColor with
    | TargetColor.Diffuse =>
      let diffuse := mat.diffuse
      let diffuse := diffuse.set value.1 value.2.1 value.2.2 diffuse.a
      { mat with diffuse := diffuse }
    | TargetColor.Specular =>
      let specular := mat.specular
      let specular := specular.set value.1 value.2.1 value.2.2 specular.a
      { mat with specular := specular }
    | TargetColor.Emissive =>
      let emissive := mat.emission
      let emissive := emissive.set value.1 value.2.1 value.2.2 emissive.a
      { mat with emission := emissive }
    | _ =>
      let ambient := mat.ambient
      let ambient := ambient.set value.1 value.2.1 value.2.2 ambient.a
      { mat with ambient := ambient }
  else mat

/-! ## UVController -/

/-- The 4×4 matrix `osg::Matrixf`, indexed `(row, column)`.  OpenSceneGraph
transforms a point as a row vector multiplied from the left, and keeps the
translation in row 3. -/
abbrev Matrixf := Fin 4 → Fin 4 → ℚ

/-- The identity matrix. -/
def Matrixf.identity : Matrixf :=
  fun i j => if i = j then 1 else 0

/-- The matrix `osg::Matrixf::translate(v)`: the identity with `v` in row 3. -/
def Matrixf.translate (v : Vec3f) : Matrixf :=
  fun i j =>
    if i = 3 then (if j = 0 then v.1 else if j = 1 then v.2.1 else if j = 2 then v.2.2 else 1)
    else if i = j then 1 else 0

/-- The call `mat.preMultScale(v)`: row `i` is multiplied by `v[i]`, for the
first three rows. -/
def Matrixf.preMultScale (m : Matrixf) (v : Vec3f) : Matrixf :=
  fun i j =>
    if i = 0 then m 0 j * v.1
    else if i = 1 then m 1 j * v.2.1
    else if i = 2 then m 2 j * v.2.2
    else m i j

/-- The call `mat.preMultTranslate(v)`: `v[i]` times row `i` is added to row 3,
for the first three rows. -/
def Matrixf.preMultTranslate (m : Matrixf) (v : Vec3f) : Matrixf :=
  fun i j =>
    if i = 3 then m 3 j + v.1 * m 0 j + v.2.1 * m 1 j + v.2.2 * m 2 j
    else m i j

/-- The call `mat.getTrans()`: the first three entries of row 3. -/
def Matrixf.getTrans (m : Matrixf) : Vec3f :=
  (m 3 0, m 3 1, m 3 2)

/-- The call `mat.setTrans(v)`: the first three entries of row 3 become `v`. -/
def Matrixf.setTrans (m : Matrixf) (v : Vec3f) : Matrixf :=
  fun i j =>
    if i = 3 then (if j = 0 then v.1 else if j = 1 then v.2.1 else if j = 2 then v.2.2 else m 3 j)
    else m i j

/-- The image of the texture coordinate `(u, v, 0, 1)` under a texture matrix:
the first two components of the row vector times the matrix. -/
def Matrixf.mapUV (m : Matrixf) (u v : ℚ) : ℚ × ℚ :=
  (u * m 0 0 + v * m 1 0 + m 3 0, u * m 0 1 + v * m 1 1 + m 3 1)

/-- The members of `UVController`; `mTextureUnits` lists the elements of the
`std::set<int>` in increasing order. -/
structure UVController extends Controller where
  mUTrans : FloatInterpolator
  mVTrans : FloatInterpolator
  mUScale : FloatInterpolator
  mVScale : FloatInterpolator
  mTextureUnits : List ℤ

/-- The local `mat` of `UVController::apply` for the sampled time `value`. -/
def UVController.matrix (c : UVController) (value : ℚ) : Matrixf :=
  let uvOrigin : Vec3f := (1 / 2, 1 / 2, 0)
  let uvScale : Vec3f := (c.mUScale.interpKey value, c.mVScale.interpKey value, 1)
  let uvTrans : Vec3f := (-c.mUTrans.interpKey value, -c.mVTrans.interpKey value, 0)
  let mat := Matrixf.translate uvOrigin
  let mat := mat.preMultScale uvScale
  let mat := mat.preMultTranslate (-uvOrigin.1, -uvOrigin.2.1, -uvOrigin.2.2)
  mat.setTrans (mat.getTrans.1 + uvTrans.1, mat.getTrans.2.1 + uvTrans.2.1,
    mat.getTrans.2.2 + uvTrans.2.2)

/-- The method `UVController::apply`, as a function of the matrix held by the
`osg::TexMat` that `setDefaults` shares between the texture units. -/
def UVController.apply (c : UVController) (texMat : Matrixf) : Matrixf :=
  if c.hasInput then
    let value := c.getInputValue
    let mat := c.matrix value
    if c.mTextureUnits.isEmpty = false then mat else texMat
  else texMat

/-- An example UV controller with an input bound at time 0 and one texture unit:
translation samples `(1/4, 1/8)`, scale samples `(2, 4)`. -/
def exampleUV : UVController :=
  ⟨⟨some 0, ⟨1, 0, 0, 10, ExtrapolationMode.Constant⟩⟩,
    ⟨[(0, 1 / 4)], 0, lerp⟩, ⟨[(0, 1 / 8)], 0, lerp⟩, ⟨[(0, 2)], 1, lerp⟩, ⟨[(0, 4)], 1, lerp⟩,
    [0]⟩

/-! ## ParticleSystemController -/

/-- The part of `osgParticle::ParticleProcessor` the controller touches: the
frozen flag of its particle system and its own enabled flag. -/
structure ParticleProcessor where
  frozen : Bool
  enabled : Bool
  deriving DecidableEq

/-- The members of `ParticleSystemController`. -/
structure ParticleSystemController extends Controller where
  mEmitStart : ℚ
  mEmitStop : ℚ

/-- The method `ParticleSystemController::operator()`; the traversal of the
children is left to the scene graph. -/
def ParticleSystemController.operator (c : ParticleSystemController) (node : ParticleProcessor) :
    ParticleProcessor :=
  if c.hasInput then
    let time := c.getInputValue
    let node := { node with frozen := false }
    { node with enabled := decide (time ≥ c.mEmitStart ∧ time < c.mEmitStop) }
  else { node with frozen := true }

/-! ## GeomMorpherController -/

/-- Modelled from the spec: the MorphGeometryTarget (`SceneUtil::MorphGeometry`),
missing from the sources: an indexed morph-target list, of which only the
weights matter here, and a `dirty()` notifier. -/
structure MorphGeometry where
  mMorphTargets : List ℚ
  mDirty : Bool

/-- The call `node->getMorphTarget(i).getWeight()`. -/
def MorphGeometry.getWeight (node : MorphGeometry) (i : ℕ) : ℚ :=
  node.mMorphTargets.getD i 0

/-- The call `node->getMorphTarget(i).setWeight(weight)`. -/
def MorphGeometry.setWeight (node : MorphGeometry) (i : ℕ) (weight : ℚ) : MorphGeometry :=
  { node with mMorphTargets := node.mMorphTargets.set i weight }

/-- The call `node->dirty()`. -/
def MorphGeometry.dirty (node : MorphGeometry) : MorphGeometry :=
  { node with mDirty := true }

/-- The members of `GeomMorpherController`. -/
structure GeomMorpherController extends Controller where
  mKeyFrames : List FloatInterpolator
  mWeights : List ℚ

/-- The local `val` of the loop body of `GeomMorpherController::operator()`, for
the index `i` and the interpolator `it` the iterator points at. -/
def GeomMorpherController.val (c : GeomMorpherController) (input : ℚ) (i : ℕ)
    (it : FloatInterpolator) : ℚ :=
  if it.empty = false then
    let val := it.interpKey input
    if i < c.mWeights.length then val * c.mWeights.getD i 1 else val
  else 0

/-- The loop of `GeomMorpherController::operator()` from index `i` on, over the
interpolators the iterator has still to visit. -/
def GeomMorpherController.loop (c : GeomMorpherController) (input : ℚ) :
    ℕ → List FloatInterpolator → MorphGeometry → MorphGeometry
  | _, [], node => node
  | i, it :: rest, node =>
    let val := c.val input i it
    let node1 := if node.getWeight i ≠ val then (node.setWeight i val).dirty else node
    GeomMorpherController.loop c input (i + 1) rest node1

/-- The method `GeomMorpherController::operator()`. -/
def GeomMorpherController.operator (c : GeomMorpherController) (node : MorphGeometry) :
    MorphGeometry :=
  if c.hasInput then
    if c.mKeyFrames.length ≤ 1 then node
    else
      let input := c.getInputValue
      GeomMorpherController.loop c input 1 c.mKeyFrames.tail node
  else node

/-- An example morph controller with an input bound at time 0: three key-frame
interpolators (the base shape, one sampling 2, one empty) and the weight vector
`[1, 3]`. -/
def exampleMorpher : GeomMorpherController :=
  ⟨⟨some 0, ⟨1, 0, 0, 10, ExtrapolationMode.Constant⟩⟩,
    [noInterpolator, ⟨[(0, 2)], 0, lerp⟩, noInterpolator], [1, 3]⟩

/-- An example morph geometry: target weights `[5, 0, 4]`, not dirty. -/
def exampleGeometry : MorphGeometry :=
  ⟨[5, 0, 4], false⟩

/-- An example material: every colour `(1/2, 1/2, 1/2)` with alpha 1, except the
diffuse colour `(1/5, 2/5, 3/5)` with alpha 1. -/
def exampleMaterial : Material :=
  ⟨⟨1 / 2, 1 / 2, 1 / 2, 1⟩, ⟨1 / 5, 2 / 5, 3 / 5, 1⟩, ⟨1 / 2, 1 / 2, 1 / 2, 1⟩,
    ⟨1 / 2, 1 / 2, 1 / 2, 1⟩⟩

/-- The alpha controller of scenario S5 of the specification: the linear key list
`[(0, 0), (1, 1)]`, with an input source yielding `t` under a time function that
leaves every time in `[0, 1]` unchanged. -/
def scenarioAlpha (t : ℚ) : AlphaController :=
  ⟨⟨some t, ⟨1, 0, 0, 1, ExtrapolationMode.Constant⟩⟩, ⟨[(0, 0), (1, 1)], 1, lerp⟩,
    exampleMaterial⟩

/-- An example material-colour controller with an input bound at time 0, whose
track samples the colour `(1/10, 2/10, 3/10)`, for the given target tag. -/
def exampleMaterialColor (target : TargetColor) : MaterialColorController :=
  ⟨⟨some 0, ⟨1, 0, 0, 10, ExtrapolationMode.Constant⟩⟩,
    ⟨[(0, (1 / 10, 2 / 10, 3 / 10))], (1, 1, 1), step⟩, target, exampleMaterial⟩

/-- An example particle-system controller emitting on `[1, 3)`, with the given
input source. -/
def exampleParticles (source : Option ℚ) : ParticleSystemController :=
  ⟨⟨source, ⟨1, 0, 0, 10, ExtrapolationMode.Constant⟩⟩, 1, 3⟩

/-- A keyframe controller built from neither an interpolator block nor a data
block, with an input bound at time 0: every stream is empty. -/
def missingDataKeyframe : KeyframeController WordQuat :=
  ⟨⟨some 0, ⟨1, 0, 0, 10, ExtrapolationMode.Constant⟩⟩,
    ⟨[], wordRotate 0 Axis.X, step⟩, noInterpolator, noInterpolator, noInterpolator,
    ⟨[], (0, 0, 0), step⟩, noInterpolator, AxisOrder.Order_XYZ⟩

/-- An alpha controller built from neither an interpolator block nor a data
block, with an input bound at time 0. -/
def missingDataAlpha : AlphaController :=
  ⟨⟨some 0, ⟨1, 0, 0, 10, ExtrapolationMode.Constant⟩⟩, noInterpolator, exampleMaterial⟩

/-- A visibility controller built from neither an interpolator block nor a data
block, with an input bound at time 0 and hide-mask 0. -/
def missingDataVis : VisController :=
  ⟨⟨some 0, ⟨1, 0, 0, 10, ExtrapolationMode.Constant⟩⟩, [], ⟨[], 0, step⟩, 0⟩

end NifOsg

namespace MWWorld

/-! ## RefData -/

/-- The members of `RefData` that the accessors below read or write; the script
locals and the creature statistics are left out. -/
structure RefData where
  mHandle : String
  mHasLocals : Bool
  mEnabled : Bool
  mCount : ℤ
  deriving DecidableEq

/-- The constructor `RefData()`: `mHasLocals (false), mEnabled (true),
mCount (1)`, with an empty handle. -/
def RefData.new : RefData :=
  ⟨"", false, true, 1⟩

/-- The method `RefData::getHandle`. -/
def RefData.getHandle (r : RefData) : String :=
  r.mHandle

/-- The method `RefData::getCount`. -/
def RefData.getCount (r : RefData) : ℤ :=
  r.mCount

/-- The method `RefData::setHandle`. -/
def RefData.setHandle (r : RefData) (handle : String) : RefData :=
  { r with mHandle := handle }

/-- The method `RefData::setCount`. -/
def RefData.setCount (r : RefData) (count : ℤ) : RefData :=
  { r with mCount := count }

/-- The method `RefData::isEnabled`. -/
def RefData.isEnabled (r : RefData) : Bool :=
  r.mEnabled

/-- The method `RefData::enable`. -/
def RefData.enable (r : RefData) : RefData :=
  { r with mEnabled := true }

/-- The method `RefData::disable`; its body is `mEnabled = true;`. -/
def RefData.disable (r : RefData) : RefData :=
  { r with mEnabled := true }

end MWWorld

namespace NifOsg

/-! ## Facts about the time function -/

theorem ControllerFunction.calculate_in_window (f : ControllerFunction) (v : ℚ)
    (hin : f.mStartTime ≤ f.time v ∧ f.time v ≤ f.mStopTime) :
    f.calculate v = f.time v := by
  unfold ControllerFunction.time at hin
  simp only [ControllerFunction.calculate, ControllerFunction.time, ge_iff_le]
  rw [if_pos hin]

theorem ControllerFunction.calculate_cycle_out (f : ControllerFunction) (v : ℚ)
    (hmode : f.mExtrapolationMode = ExtrapolationMode.Cycle)
    (hdelta : 0 < f.mStopTime - f.mStartTime)
    (hout : ¬ (f.mStartTime ≤ f.time v ∧ f.time v ≤ f.mStopTime)) :
    f.calculate v = f.wrapped (f.time v) := by
  unfold ControllerFunction.time at hout
  simp only [ControllerFunction.calculate, ControllerFunction.time, ControllerFunction.wrapped,
    ge_iff_le, hmode, Int.fract]
  rw [if_neg hout, if_neg (not_le.mpr hdelta)]

theorem ControllerFunction.wrapped_mem (f : ControllerFunction) (t : ℚ)
    (hdelta : 0 < f.mStopTime - f.mStartTime) :
    f.mStartTime ≤ f.wrapped t ∧ f.wrapped t < f.mStopTime := by
  unfold ControllerFunction.wrapped
  have h0 := Int.fract_nonneg ((t - f.mStartTime) / (f.mStopTime - f.mStartTime))
  have h1 := Int.fract_lt_one ((t - f.mStartTime) / (f.mStopTime - f.mStartTime))
  constructor
  · nlinarith
  · nlinarith

theorem ControllerFunction.wrapped_add_delta (f : ControllerFunction) (t : ℚ)
    (hdelta : 0 < f.mStopTime - f.mStartTime) :
    f.wrapped (t + (f.mStopTime - f.mStartTime)) = f.wrapped t := by
  unfold ControllerFunction.wrapped
  have hne : f.mStopTime - f.mStartTime ≠ 0 := ne_of_gt hdelta
  have hc : (t + (f.mStopTime - f.mStartTime) - f.mStartTime) / (f.mStopTime - f.mStartTime)
      = (t - f.mStartTime) / (f.mStopTime - f.mStartTime) + 1 := by
    field_simp
    ring
  rw [hc, Int.fract_add_one]

theorem ControllerFunction.wrapped_of_mem (f : ControllerFunction) (t : ℚ)
    (hlo : f.mStartTime ≤ t) (hhi : t < f.mStopTime) :
    f.wrapped t = t := by
  unfold ControllerFunction.wrapped
  have hdelta : 0 < f.mStopTime - f.mStartTime := by linarith
  have hfr : Int.fract ((t - f.mStartTime) / (f.mStopTime - f.mStartTime))
      = (t - f.mStartTime) / (f.mStopTime - f.mStartTime) := by
    rw [Int.fract_eq_self]
    constructor
    · exact div_nonneg (by linarith) hdelta.le
    · rw [div_lt_one hdelta]; linarith
  rw [hfr, div_mul_cancel₀ _ (ne_of_gt hdelta)]
  ring

theorem ControllerFunction.wrapped_eq (f : ControllerFunction) (t : ℚ) :
    f.wrapped t = f.mStartTime + f.remainder t := rfl

/-- C2. In Cycle mode, for a window with `delta = stopTime - startTime > 0` and an
input whose mapped time `t` lies outside `[startTime, stopTime]`, the result is
`startTime + (cycles - floor(cycles)) * delta` with `cycles = (t - startTime) / delta`;
with frequency 1, phase 0 and window `[0, 10]`, input 25 gives 5 and input -3 gives 7. -/
theorem cycle_closed_form :
    (∀ (f : ControllerFunction) (v : ℚ),
      f.mExtrapolationMode = ExtrapolationMode.Cycle →
      0 < f.mStopTime - f.mStartTime →
      ¬ (f.mStartTime ≤ f.time v ∧ f.time v ≤ f.mStopTime) →
      f.calculate v
        = f.mStartTime
          + ((f.time v - f.mStartTime) / (f.mStopTime - f.mStartTime)
              - (⌊(f.time v - f.mStartTime) / (f.mStopTime - f.mStartTime)⌋ : ℚ))
            * (f.mStopTime - f.mStartTime)) ∧
    ControllerFunction.calculate ⟨1, 0, 0, 10, ExtrapolationMode.Cycle⟩ 25 = 5 ∧
    ControllerFunction.calculate ⟨1, 0, 0, 10, ExtrapolationMode.Cycle⟩ (-3) = 7 := by
  refine ⟨fun f v hmode hdelta hout => ?_, ?_, ?_⟩
  · rw [f.calculate_cycle_out v hmode hdelta hout]
    rfl
  · norm_num [ControllerFunction.calculate]
  · norm_num [ControllerFunction.calculate]

/-- Witness for C2: the closed form at window `[0, 8]` and input -2, where
`cycles = -1/4`, `floor(cycles) = -1` and the result is 6. -/
theorem cycle_closed_form_witness :
    ControllerFunction.calculate ⟨1, 0, 0, 8, ExtrapolationMode.Cycle⟩ (-2) = 6 := by
  have h := cycle_closed_form.1 ⟨1, 0, 0, 8, ExtrapolationMode.Cycle⟩ (-2) rfl
    (by norm_num) (by norm_num [ControllerFunction.time])
  rw [h]
  norm_num [ControllerFunction.time]

/-! ### Reverse mode -/

theorem toInt_abs_intCast (n : ℤ) : toInt |(n : ℚ)| = |n| := by
  unfold toInt
  rw [if_pos (abs_nonneg _), ← Int.cast_abs, Int.floor_intCast]

theorem tmod_two_abs_eq_zero_iff (n : ℤ) : (|n|).tmod 2 = 0 ↔ Even n := by
  rw [Int.tmod_eq_emod (abs_nonneg n) (by norm_num), ← Int.even_iff, even_abs]

theorem triangle_mirror (k : ℤ) (y : ℚ) : triangle (k + y) = triangle (k - y) := by
  have hsub : (k : ℚ) - y = k + -y := sub_eq_add_neg _ _
  unfold triangle
  rw [hsub, Int.floor_int_add, Int.floor_int_add, Int.fract_int_add, Int.fract_int_add]
  by_cases h0 : Int.fract y = 0
  · have hy : y = ⌊y⌋ := by
      have := Int.floor_add_fract y
      rw [h0, add_zero] at this
      exact this.symm
    have hneg : ⌊-y⌋ = -⌊y⌋ := by
      rw [hy, ← Int.cast_neg, Int.floor_intCast, Int.floor_intCast]
    have hfn : Int.fract (-y) = 0 := Int.fract_neg_eq_zero.mpr h0
    rw [hneg, hfn, h0]
    have hpar : Even (k + ⌊y⌋) ↔ Even (k + -⌊y⌋) := by
      rw [Int.even_iff, Int.even_iff]; omega
    by_cases he : Even (k + ⌊y⌋)
    · rw [if_pos he, if_pos (hpar.mp he)]
    · rw [if_neg he, if_neg (fun h => he (hpar.mpr h))]
  · have hpos : 0 < Int.fract y := lt_of_le_of_ne (Int.fract_nonneg y) (Ne.symm h0)
    have hneg : ⌊-y⌋ = -⌊y⌋ - 1 := by
      rw [Int.floor_eq_iff]
      have h1 := Int.lt_floor_add_one y
      have h2 : (⌊y⌋ : ℚ) < y := by
        have := Int.floor_add_fract y
        linarith
      push_cast
      constructor <;> linarith
    have hfn : Int.fract (-y) = 1 - Int.fract y := Int.fract_neg h0
    rw [hneg, hfn]
    have hpar : Even (k + ⌊y⌋) ↔ ¬ Even (k + (-⌊y⌋ - 1)) := by
      rw [Int.even_iff, Int.even_iff]; omega
    by_cases he : Even (k + ⌊y⌋)
    · rw [if_pos he, if_neg (hpar.mp he)]
      ring
    · rw [if_neg he, if_pos (not_not.mp (fun h => he (hpar.mpr h)))]

/-! ### Binary32 evaluation -/

theorem log_two_eq (x : ℚ) (e : ℤ) (h1 : (2 : ℚ) ^ e ≤ x) (h2 : x < (2 : ℚ) ^ (e + 1)) :
    Int.log 2 x = e := by
  have hpos : 0 < x := lt_of_lt_of_le (zpow_pos (by norm_num) e) h1
  have hle : e ≤ Int.log 2 x :=
    (Int.zpow_le_iff_le_log (by norm_num) hpos).mp (by exact_mod_cast h1)
  have hlt : Int.log 2 x < e + 1 :=
    (Int.lt_zpow_iff_log_lt (by norm_num) hpos).mp (by exact_mod_cast h2)
  omega

theorem roundF32_eval_pos (x y : ℚ) (e n : ℤ) (he : -126 ≤ e)
    (h1 : (2 : ℚ) ^ e ≤ x) (h2 : x < (2 : ℚ) ^ (e + 1))
    (hn : roundHalfEven (x / 2 ^ (e - 23)) = n) (hy : y = n * 2 ^ (e - 23)) :
    roundF32 x = y := by
  have hpos : 0 < x := lt_of_lt_of_le (zpow_pos (by norm_num) e) h1
  have hexp : ulpExponent x = e - 23 := by
    unfold ulpExponent
    rw [abs_of_pos hpos, log_two_eq x e h1 h2, max_eq_left he]
  unfold roundF32
  rw [hexp, hn, hy]

theorem roundF32_eval_neg (x y : ℚ) (e n : ℤ) (he : -126 ≤ e)
    (h1 : (2 : ℚ) ^ e ≤ -x) (h2 : -x < (2 : ℚ) ^ (e + 1))
    (hn : roundHalfEven (x / 2 ^ (e - 23)) = n) (hy : y = n * 2 ^ (e - 23)) :
    roundF32 x = y := by
  have hpos : 0 < -x := lt_of_lt_of_le (zpow_pos (by norm_num) e) h1
  have hexp : ulpExponent x = e - 23 := by
    unfold ulpExponent
    rw [abs_of_neg (by linarith), log_two_eq (-x) e h1 h2, max_eq_left he]
  unfold roundF32
  rw [hexp, hn, hy]

theorem roundF32_zero : roundF32 0 = 0 := by
  have h : roundHalfEven 0 = 0 := by norm_num [roundHalfEven]
  unfold roundF32
  rw [zero_div, h, Int.cast_zero, zero_mul]

theorem roundHalfEven_nonneg (y : ℚ) (h : 0 ≤ y) : 0 ≤ roundHalfEven y := by
  have hf : 0 ≤ ⌊y⌋ := Int.floor_nonneg.mpr h
  unfold roundHalfEven
  split_ifs <;> omega

theorem roundHalfEven_le (y : ℚ) (N : ℤ) (h : y ≤ N) : roundHalfEven y ≤ N := by
  have hfl := Int.floor_le y
  have hf : ⌊y⌋ ≤ N := by
    have : ((⌊y⌋ : ℤ) : ℚ) ≤ (N : ℚ) := le_trans hfl h
    exact_mod_cast this
  unfold roundHalfEven
  by_cases h1 : y - ⌊y⌋ < 1 / 2
  · rw [if_pos h1]; exact hf
  · rw [if_neg h1]
    have hlt : ⌊y⌋ < N := by
      by_contra hcon
      have h2 : N ≤ ⌊y⌋ := not_lt.mp hcon
      have h3 : (N : ℚ) ≤ ⌊y⌋ := by exact_mod_cast h2
      apply h1
      linarith
    split_ifs <;> omega

theorem ulpExponent_nonpos (x : ℚ) (h0 : 0 ≤ x) (h1 : x ≤ 1) : ulpExponent x ≤ 0 := by
  have hlog : Int.log 2 |x| ≤ 0 := by
    rw [abs_of_nonneg h0]
    rcases eq_or_lt_of_le h0 with h | h
    · rw [← h, Int.log_of_right_le_zero 2 le_rfl]
    · have h2 : x < (2 : ℚ) ^ (1 : ℤ) := by norm_num; linarith
      have := (Int.lt_zpow_iff_log_lt (by norm_num : 1 < 2) h).mp h2
      omega
  unfold ulpExponent
  have := max_le hlog (by norm_num : (-126 : ℤ) ≤ 0)
  omega

/-- Rounding to binary32 does not leave the unit interval. -/
theorem roundF32_mem_unit (x : ℚ) (h0 : 0 ≤ x) (h1 : x ≤ 1) :
    0 ≤ roundF32 x ∧ roundF32 x ≤ 1 := by
  obtain ⟨m, hm⟩ := Int.exists_eq_neg_ofNat (ulpExponent_nonpos x h0 h1)
  unfold roundF32
  rw [hm, zpow_neg, zpow_natCast, div_inv_eq_mul]
  have hpos : (0 : ℚ) < 2 ^ m := by positivity
  have hy0 : 0 ≤ x * 2 ^ m := mul_nonneg h0 hpos.le
  have hy1 : x * 2 ^ m ≤ (((2 : ℤ) ^ m : ℤ) : ℚ) := by
    push_cast
    nlinarith
  have hr0 := roundHalfEven_nonneg _ hy0
  have hr1 := roundHalfEven_le _ _ hy1
  have hr0q : (0 : ℚ) ≤ roundHalfEven (x * 2 ^ m) := by exact_mod_cast hr0
  have hr1q : (roundHalfEven (x * 2 ^ m) : ℚ) ≤ 2 ^ m := by exact_mod_cast hr1
  constructor
  · exact mul_nonneg hr0q (inv_nonneg.mpr hpos.le)
  · rw [← div_eq_mul_inv, div_le_one hpos]
    exact hr1q

theorem ControllerFunction.calculateF32_in_window (f : ControllerFunction) (v : ℚ)
    (hin : f.mStartTime ≤ f.timeF32 v ∧ f.timeF32 v ≤ f.mStopTime) :
    f.calculateF32 v = f.timeF32 v := by
  unfold ControllerFunction.timeF32 at hin
  simp only [ControllerFunction.calculateF32, ControllerFunction.timeF32, ge_iff_le]
  rw [if_pos hin]

theorem ControllerFunction.calculateF32_cycle_steps (f : ControllerFunction)
    (v delta d cycles fr rem res : ℚ)
    (hmode : f.mExtrapolationMode = ExtrapolationMode.Cycle)
    (hout : ¬ (f.mStartTime ≤ f.timeF32 v ∧ f.timeF32 v ≤ f.mStopTime))
    (hdelta : roundF32 (f.mStopTime - f.mStartTime) = delta) (hpos : 0 < delta)
    (hd : roundF32 (f.timeF32 v - f.mStartTime) = d)
    (hc : roundF32 (d / delta) = cycles)
    (hfr : roundF32 (cycles - (⌊cycles⌋ : ℚ)) = fr)
    (hrem : roundF32 (fr * delta) = rem)
    (hres : roundF32 (f.mStartTime + rem) = res) :
    f.calculateF32 v = res := by
  unfold ControllerFunction.timeF32 at hout hd
  simp only [ControllerFunction.calculateF32, ge_iff_le, hmode]
  rw [if_neg hout, hdelta, if_neg (not_le.mpr hpos), hd, hc, hfr, hrem, hres]

theorem ControllerFunction.calculateF32_reverse_steps (f : ControllerFunction)
    (v delta d cycles fr rem : ℚ)
    (hmode : f.mExtrapolationMode = ExtrapolationMode.Reverse)
    (hout : ¬ (f.mStartTime ≤ f.timeF32 v ∧ f.timeF32 v ≤ f.mStopTime))
    (hdelta : roundF32 (f.mStopTime - f.mStartTime) = delta) (hpos : 0 < delta)
    (hd : roundF32 (f.timeF32 v - f.mStartTime) = d)
    (hc : roundF32 (d / delta) = cycles)
    (hfr : roundF32 (cycles - (⌊cycles⌋ : ℚ)) = fr)
    (hrem : roundF32 (fr * delta) = rem) :
    f.calculateF32 v
      = if Even ⌊cycles⌋ then roundF32 (f.mStartTime + rem)
        else roundF32 (f.mStopTime - rem) := by
  unfold ControllerFunction.timeF32 at hout hd
  simp only [ControllerFunction.calculateF32, ge_iff_le, hmode]
  rw [if_neg hout, hdelta, if_neg (not_le.mpr hpos), hd, hc, hfr, hrem]
  simp only [toInt_abs_intCast, tmod_two_abs_eq_zero_iff]

theorem ControllerFunction.timeF32_steps (f : ControllerFunction) (v p t : ℚ)
    (hp : roundF32 (f.mFrequency * v) = p) (ht : roundF32 (p + f.mPhase) = t) :
    f.timeF32 v = t := by
  unfold ControllerFunction.timeF32
  rw [hp, ht]

/-- The time function of scenario S1 rounds the mapped time of a binary32 input
to itself: frequency 1, phase 0. -/
theorem timeF32_identity (start stop : ℚ) (mode : ExtrapolationMode) (v : ℚ)
    (hv : roundF32 v = v) :
    ControllerFunction.timeF32 ⟨1, 0, start, stop, mode⟩ v = v := by
  unfold ControllerFunction.timeF32
  simp only [one_mul, add_zero]
  rw [hv, hv]

/-! ### Cycle and Reverse in binary32 -/

theorem ControllerFunction.reflected_eq_triangle (f : ControllerFunction) (t : ℚ) :
    f.reflected t
      = f.mStartTime + triangle (f.cycles t) * (f.mStopTime - f.mStartTime) := by
  unfold ControllerFunction.reflected triangle ControllerFunction.remainder Int.fract
  split <;> ring

theorem ControllerFunction.triangle_of_in_window (f : ControllerFunction) (t : ℚ)
    (hdelta : 0 < f.mStopTime - f.mStartTime)
    (hin : f.mStartTime ≤ t ∧ t ≤ f.mStopTime) :
    f.mStartTime + triangle (f.cycles t) * (f.mStopTime - f.mStartTime) = t := by
  have hne : f.mStopTime - f.mStartTime ≠ 0 := ne_of_gt hdelta
  have hc0 : 0 ≤ f.cycles t := div_nonneg (by linarith [hin.1]) hdelta.le
  have hc1 : f.cycles t ≤ 1 := by
    unfold ControllerFunction.cycles
    rw [div_le_one hdelta]; linarith [hin.2]
  have hmul : f.cycles t * (f.mStopTime - f.mStartTime) = t - f.mStartTime :=
    div_mul_cancel₀ _ hne
  rcases lt_or_eq_of_le hc1 with hlt | heq
  · have hfl : ⌊f.cycles t⌋ = 0 := by
      rw [Int.floor_eq_iff]; constructor <;> simpa using by assumption
    have hfr : Int.fract (f.cycles t) = f.cycles t := Int.fract_eq_self.mpr ⟨hc0, hlt⟩
    unfold triangle
    rw [hfl, if_pos (by decide), hfr, hmul]
    ring
  · unfold triangle
    rw [heq] at hmul ⊢
    have hfl : ⌊(1 : ℚ)⌋ = 1 := Int.floor_one
    rw [hfl, if_neg (by decide), Int.fract_one]
    linarith

theorem exactF32_of_bounds (x : ℚ) (h0 : -maxF32 ≤ x) (h1 : x ≤ maxF32) (h : roundF32 x = x) :
    exactF32 x :=
  ⟨abs_le.mpr ⟨h0, h1⟩, h⟩

theorem ControllerFunction.calculateF32_cycle_exact (f : ControllerFunction) (v : ℚ)
    (hmode : f.mExtrapolationMode = ExtrapolationMode.Cycle)
    (hdelta : 0 < f.mStopTime - f.mStartTime)
    (hout : ¬ (f.mStartTime ≤ f.timeF32 v ∧ f.timeF32 v ≤ f.mStopTime))
    (hex : f.cycleStepsExact (f.timeF32 v)) :
    f.calculateF32 v = f.wrapped (f.timeF32 v) := by
  obtain ⟨h1, h2, h3, h4, h5, h6⟩ := hex
  rw [f.wrapped_eq]
  exact f.calculateF32_cycle_steps v _ _ _ _ _ _ hmode hout h1.2 hdelta h2.2 h3.2 h4.2 h5.2 h6.2

theorem ControllerFunction.calculateF32_reverse_exact (f : ControllerFunction) (v : ℚ)
    (hmode : f.mExtrapolationMode = ExtrapolationMode.Reverse)
    (hdelta : 0 < f.mStopTime - f.mStartTime)
    (hout : ¬ (f.mStartTime ≤ f.timeF32 v ∧ f.timeF32 v ≤ f.mStopTime))
    (hex : f.reverseStepsExact (f.timeF32 v)) :
    f.calculateF32 v = f.reflected (f.timeF32 v) := by
  obtain ⟨h1, h2, h3, h4, h5, ⟨_, h6⟩, _⟩ := hex
  rw [f.calculateF32_reverse_steps v _ _ _ _ _ hmode hout h1.2 hdelta h2.2 h3.2 h4.2 h5.2]
  unfold ControllerFunction.reflected at h6 ⊢
  by_cases he : Even ⌊f.cycles (f.timeF32 v)⌋
  · rw [if_pos he] at h6
    rw [if_pos he, if_pos he]
    exact h6
  · rw [if_neg he] at h6
    rw [if_neg he, if_neg he]
    exact h6

/-- C1, as stated, fails on the binary32 code.  Cycle mode, frequency 1, phase 0,
window `[0, 10]`.  (1) Input `-2^-30`: the mapped time is outside the window,
`cycles = fl(-2^-30 / 10)`, and `cycles - floor(cycles) = 1 - 13421773 * 2^-57`
rounds to 1, so the remainder is 10 and the result is `stopTime = 10`, not below
it.  (2) Inputs 11 and 21, whose mapped times are outside the window and differ by
`delta = 10`: the results are `1 + 2^-22` and `1 - 2^-20`. -/
theorem cycle_rounding_counterexample :
    ControllerFunction.timeF32 ⟨1, 0, 0, 10, ExtrapolationMode.Cycle⟩ (-1 / 2 ^ 30)
      = -1 / 2 ^ 30 ∧
    ¬ ((0 : ℚ) ≤ -1 / 2 ^ 30 ∧ (-1 / 2 ^ 30 : ℚ) ≤ 10) ∧
    ControllerFunction.calculateF32 ⟨1, 0, 0, 10, ExtrapolationMode.Cycle⟩ (-1 / 2 ^ 30) = 10 ∧
    ¬ (ControllerFunction.calculateF32 ⟨1, 0, 0, 10, ExtrapolationMode.Cycle⟩ (-1 / 2 ^ 30)
        < 10) ∧
    ControllerFunction.timeF32 ⟨1, 0, 0, 10, ExtrapolationMode.Cycle⟩ 11 = 11 ∧
    ControllerFunction.timeF32 ⟨1, 0, 0, 10, ExtrapolationMode.Cycle⟩ 21 = 11 + (10 - 0) ∧
    ControllerFunction.calculateF32 ⟨1, 0, 0, 10, ExtrapolationMode.Cycle⟩ 11
      = 1 + 1 / 2 ^ 22 ∧
    ControllerFunction.calculateF32 ⟨1, 0, 0, 10, ExtrapolationMode.Cycle⟩ 21
      = 1 - 1 / 2 ^ 20 ∧
    ControllerFunction.calculateF32 ⟨1, 0, 0, 10, ExtrapolationMode.Cycle⟩ 21
      ≠ ControllerFunction.calculateF32 ⟨1, 0, 0, 10, ExtrapolationMode.Cycle⟩ 11 := by
  have hdelta : roundF32 ((10 : ℚ) - 0) = 10 :=
    roundF32_eval_pos _ _ 3 10485760 (by norm_num) (by norm_num) (by norm_num)
      (by norm_num [roundHalfEven]) (by norm_num)
  have hv : roundF32 (-1 / 2 ^ 30) = -1 / 2 ^ 30 :=
    roundF32_eval_neg _ _ (-30) (-8388608) (by norm_num) (by norm_num) (by norm_num)
      (by norm_num [roundHalfEven]) (by norm_num)
  have h11 : roundF32 11 = 11 :=
    roundF32_eval_pos _ _ 3 11534336 (by norm_num) (by norm_num) (by norm_num)
      (by norm_num [roundHalfEven]) (by norm_num)
  have h21 : roundF32 21 = 21 :=
    roundF32_eval_pos _ _ 4 11010048 (by norm_num) (by norm_num) (by norm_num)
      (by norm_num [roundHalfEven]) (by norm_num)
  have htv := timeF32_identity 0 10 ExtrapolationMode.Cycle _ hv
  have ht11 := timeF32_identity 0 10 ExtrapolationMode.Cycle _ h11
  have ht21 := timeF32_identity 0 10 ExtrapolationMode.Cycle _ h21
  have hcv : ControllerFunction.calculateF32 ⟨1, 0, 0, 10, ExtrapolationMode.Cycle⟩
      (-1 / 2 ^ 30) = 10 := by
    refine ControllerFunction.calculateF32_cycle_steps _ _ 10 (-1 / 2 ^ 30)
      (-13421773 / 2 ^ 57) 1 10 10 rfl ?_ hdelta (by norm_num) ?_ ?_ ?_ ?_ ?_
    · rw [htv]; norm_num
    · rw [htv]
      exact roundF32_eval_neg _ _ (-30) (-8388608) (by norm_num) (by norm_num) (by norm_num)
        (by norm_num [roundHalfEven]) (by norm_num)
    · exact roundF32_eval_neg _ _ (-34) (-13421773) (by norm_num) (by norm_num) (by norm_num)
        (by norm_num [roundHalfEven]) (by norm_num)
    · exact roundF32_eval_pos _ _ (-1) 16777216 (by norm_num) (by norm_num) (by norm_num)
        (by norm_num [roundHalfEven]) (by norm_num)
    · exact roundF32_eval_pos _ _ 3 10485760 (by norm_num) (by norm_num) (by norm_num)
        (by norm_num [roundHalfEven]) (by norm_num)
    · exact roundF32_eval_pos _ _ 3 10485760 (by norm_num) (by norm_num) (by norm_num)
        (by norm_num [roundHalfEven]) (by norm_num)
  have hc11 : ControllerFunction.calculateF32 ⟨1, 0, 0, 10, ExtrapolationMode.Cycle⟩ 11
      = 1 + 1 / 2 ^ 22 := by
    refine ControllerFunction.calculateF32_cycle_steps _ _ 10 11
      (9227469 / 2 ^ 23) (838861 / 2 ^ 23) (8388610 / 2 ^ 23) _ rfl ?_ hdelta (by norm_num)
      ?_ ?_ ?_ ?_ ?_
    · rw [ht11]; norm_num
    · rw [ht11]
      exact roundF32_eval_pos _ _ 3 11534336 (by norm_num) (by norm_num) (by norm_num)
        (by norm_num [roundHalfEven]) (by norm_num)
    · exact roundF32_eval_pos _ _ 0 9227469 (by norm_num) (by norm_num) (by norm_num)
        (by norm_num [roundHalfEven]) (by norm_num)
    · exact roundF32_eval_pos _ _ (-4) 13421776 (by norm_num) (by norm_num) (by norm_num)
        (by norm_num [roundHalfEven]) (by norm_num)
    · exact roundF32_eval_pos _ _ 0 8388610 (by norm_num) (by norm_num) (by norm_num)
        (by norm_num [roundHalfEven]) (by norm_num)
    · exact roundF32_eval_pos _ _ 0 8388610 (by norm_num) (by norm_num) (by norm_num)
        (by norm_num [roundHalfEven]) (by norm_num)
  have hc21 : ControllerFunction.calculateF32 ⟨1, 0, 0, 10, ExtrapolationMode.Cycle⟩ 21
      = 1 - 1 / 2 ^ 20 := by
    refine ControllerFunction.calculateF32_cycle_steps _ _ 10 21
      (8808038 / 2 ^ 22) (419430 / 2 ^ 22) (4194300 / 2 ^ 22) _ rfl ?_ hdelta (by norm_num)
      ?_ ?_ ?_ ?_ ?_
    · rw [ht21]; norm_num
    · rw [ht21]
      exact roundF32_eval_pos _ _ 4 11010048 (by norm_num) (by norm_num) (by norm_num)
        (by norm_num [roundHalfEven]) (by norm_num)
    · exact roundF32_eval_pos _ _ 1 8808038 (by norm_num) (by norm_num) (by norm_num)
        (by norm_num [roundHalfEven]) (by norm_num)
    · exact roundF32_eval_pos _ _ (-4) 13421760 (by norm_num) (by norm_num) (by norm_num)
        (by norm_num [roundHalfEven]) (by norm_num)
    · exact roundF32_eval_pos _ _ (-1) 16777200 (by norm_num) (by norm_num) (by norm_num)
        (by norm_num [roundHalfEven]) (by norm_num)
    · exact roundF32_eval_pos _ _ (-1) 16777200 (by norm_num) (by norm_num) (by norm_num)
        (by norm_num [roundHalfEven]) (by norm_num)
  refine ⟨htv, by norm_num, hcv, ?_, ht11, ?_, hc11, hc21, ?_⟩
  · rw [hcv]; norm_num
  · rw [ht21]; norm_num
  · rw [hc11, hc21]; norm_num

/-- C1, amended.  In Cycle mode, for a window with
`delta = stopTime - startTime > 0` and an input `v` whose mapped time `t` lies
outside `[startTime, stopTime]`: whenever no binary32 operation of the Cycle
branch rounds or overflows at `v`, the result lies in `[startTime, stopTime)`; and
an input `w` whose mapped time is `t + delta` gives the same result, provided
that `w` falls inside the window or no operation of the branch rounds or
overflows at `w` either.  The mapped times are those the code computes, without
overflow. -/
theorem cycle_exact_half_open_and_periodic (f : ControllerFunction) (v w : ℚ)
    (hmode : f.mExtrapolationMode = ExtrapolationMode.Cycle)
    (hdelta : 0 < f.mStopTime - f.mStartTime)
    (hout : ¬ (f.mStartTime ≤ f.timeF32 v ∧ f.timeF32 v ≤ f.mStopTime))
    (hw : f.timeF32 w = f.timeF32 v + (f.mStopTime - f.mStartTime))
    (hvexact : f.timeFinite v ∧ f.cycleStepsExact (f.timeF32 v))
    (hwexact : f.timeFinite w ∧
      (¬ (f.mStartTime ≤ f.timeF32 w ∧ f.timeF32 w ≤ f.mStopTime) →
        f.cycleStepsExact (f.timeF32 w))) :
    (f.mStartTime ≤ f.calculateF32 v ∧ f.calculateF32 v < f.mStopTime) ∧
      f.calculateF32 w = f.calculateF32 v := by
  rw [f.calculateF32_cycle_exact v hmode hdelta hout hvexact.2]
  refine ⟨f.wrapped_mem _ hdelta, ?_⟩
  rw [← f.wrapped_add_delta _ hdelta, ← hw]
  by_cases hin : f.mStartTime ≤ f.timeF32 w ∧ f.timeF32 w ≤ f.mStopTime
  · rw [f.calculateF32_in_window w hin]
    have hlt : f.timeF32 w < f.mStopTime := by
      rcases lt_or_eq_of_le hin.2 with h | h
      · exact h
      · exfalso
        apply hout
        constructor <;> linarith
    exact (f.wrapped_of_mem _ hin.1 hlt).symm
  · exact f.calculateF32_cycle_exact w hmode hdelta hin (hwexact.2 hin)

/-- Witness for C1 amended: window `[0, 8]`, inputs -2 and 6.  Every operation of
the Cycle branch at -2 is exact (`cycles = -1/4`, remainder 6), and 6 lies inside
the window: the result is in `[0, 8)` and both inputs give it. -/
theorem cycle_exact_half_open_and_periodic_witness :
    ((0 : ℚ) ≤ ControllerFunction.calculateF32 ⟨1, 0, 0, 8, ExtrapolationMode.Cycle⟩ (-2) ∧
      ControllerFunction.calculateF32 ⟨1, 0, 0, 8, ExtrapolationMode.Cycle⟩ (-2) < 8) ∧
    ControllerFunction.calculateF32 ⟨1, 0, 0, 8, ExtrapolationMode.Cycle⟩ 6
      = ControllerFunction.calculateF32 ⟨1, 0, 0, 8, ExtrapolationMode.Cycle⟩ (-2) := by
  have hm2 : roundF32 (-2) = -2 :=
    roundF32_eval_neg _ _ 1 (-8388608) (by norm_num) (by norm_num) (by norm_num)
      (by norm_num [roundHalfEven]) (by norm_num)
  have h6 : roundF32 6 = 6 :=
    roundF32_eval_pos _ _ 2 12582912 (by norm_num) (by norm_num) (by norm_num)
      (by norm_num [roundHalfEven]) (by norm_num)
  have h8 : roundF32 8 = 8 :=
    roundF32_eval_pos _ _ 3 8388608 (by norm_num) (by norm_num) (by norm_num)
      (by norm_num [roundHalfEven]) (by norm_num)
  have hquarter : roundF32 (-(1 / 4)) = -(1 / 4) :=
    roundF32_eval_neg _ _ (-2) (-8388608) (by norm_num) (by norm_num) (by norm_num)
      (by norm_num [roundHalfEven]) (by norm_num)
  have hthree : roundF32 (3 / 4) = 3 / 4 :=
    roundF32_eval_pos _ _ (-1) 12582912 (by norm_num) (by norm_num) (by norm_num)
      (by norm_num [roundHalfEven]) (by norm_num)
  have htv := timeF32_identity 0 8 ExtrapolationMode.Cycle _ hm2
  have htw := timeF32_identity 0 8 ExtrapolationMode.Cycle _ h6
  have hcycles : ControllerFunction.cycles ⟨1, 0, 0, 8, ExtrapolationMode.Cycle⟩ (-2)
      = -(1 / 4) := by
    norm_num [ControllerFunction.cycles]
  have hfloor : ⌊(-(1 / 4) : ℚ)⌋ = -1 := by
    rw [Int.floor_eq_iff]; norm_num
  have hrem : ControllerFunction.remainder ⟨1, 0, 0, 8, ExtrapolationMode.Cycle⟩ (-2) = 6 := by
    unfold ControllerFunction.remainder
    rw [hcycles, hfloor]
    norm_num
  have hfinv : ControllerFunction.timeFinite ⟨1, 0, 0, 8, ExtrapolationMode.Cycle⟩ (-2) := by
    unfold ControllerFunction.timeFinite
    simp only [one_mul, add_zero]
    rw [hm2]
    norm_num [maxF32, abs_le]
  have hfinw : ControllerFunction.timeFinite ⟨1, 0, 0, 8, ExtrapolationMode.Cycle⟩ 6 := by
    unfold ControllerFunction.timeFinite
    simp only [one_mul, add_zero]
    rw [h6]
    norm_num [maxF32, abs_le]
  have hsteps : ControllerFunction.cycleStepsExact ⟨1, 0, 0, 8, ExtrapolationMode.Cycle⟩
      (ControllerFunction.timeF32 ⟨1, 0, 0, 8, ExtrapolationMode.Cycle⟩ (-2)) := by
    rw [htv]
    unfold ControllerFunction.cycleStepsExact
    rw [hrem, hcycles, hfloor]
    refine ⟨exactF32_of_bounds _ (by norm_num [maxF32]) (by norm_num [maxF32]) ?_,
      exactF32_of_bounds _ (by norm_num [maxF32]) (by norm_num [maxF32]) ?_,
      exactF32_of_bounds _ (by norm_num [maxF32]) (by norm_num [maxF32]) hquarter,
      exactF32_of_bounds _ (by norm_num [maxF32]) (by norm_num [maxF32]) ?_,
      exactF32_of_bounds _ (by norm_num [maxF32]) (by norm_num [maxF32]) h6,
      exactF32_of_bounds _ (by norm_num [maxF32]) (by norm_num [maxF32]) ?_⟩
    · norm_num
      exact h8
    · norm_num
      exact hm2
    · norm_num
      exact hthree
    · norm_num
      exact h6
  exact cycle_exact_half_open_and_periodic ⟨1, 0, 0, 8, ExtrapolationMode.Cycle⟩ (-2) 6 rfl
    (by norm_num) (by rw [htv]; norm_num) (by rw [htv, htw]; norm_num)
    ⟨hfinv, hsteps⟩
    ⟨hfinw, fun hout => absurd (by rw [htw]; norm_num) hout⟩

/-- C4, as stated, fails on the binary32 code.  Reverse mode, frequency 1,
phase 0, window `[0, 10]`, cycle boundary `k = 1`, offset `x = 2`: the mapped
times are 12 and 8.  At 12, `cycles = fl(12 / 10)` is `10066330 * 2^-23`, a
little above `1.2`, the remainder is `2 + 2^-21` and the result is
`10 - (2 + 2^-21) = 8 - 2^-21`; at 8, inside the window, the result is 8.  At 22
the result is `2 + 2^-21`, not 2. -/
theorem reverse_rounding_counterexample :
    ControllerFunction.timeF32 ⟨1, 0, 0, 10, ExtrapolationMode.Reverse⟩ 12
      = 0 + ((1 : ℤ) : ℚ) * (10 - 0) + 2 ∧
    ControllerFunction.timeF32 ⟨1, 0, 0, 10, ExtrapolationMode.Reverse⟩ 8
      = 0 + ((1 : ℤ) : ℚ) * (10 - 0) - 2 ∧
    ControllerFunction.calculateF32 ⟨1, 0, 0, 10, ExtrapolationMode.Reverse⟩ 12
      = 8 - 1 / 2 ^ 21 ∧
    ControllerFunction.calculateF32 ⟨1, 0, 0, 10, ExtrapolationMode.Reverse⟩ 8 = 8 ∧
    ControllerFunction.calculateF32 ⟨1, 0, 0, 10, ExtrapolationMode.Reverse⟩ 12
      ≠ ControllerFunction.calculateF32 ⟨1, 0, 0, 10, ExtrapolationMode.Reverse⟩ 8 ∧
    ControllerFunction.calculateF32 ⟨1, 0, 0, 10, ExtrapolationMode.Reverse⟩ 22
      = 2 + 1 / 2 ^ 21 ∧
    ControllerFunction.calculateF32 ⟨1, 0, 0, 10, ExtrapolationMode.Reverse⟩ 22 ≠ 2 := by
  have hdelta : roundF32 ((10 : ℚ) - 0) = 10 :=
    roundF32_eval_pos _ _ 3 10485760 (by norm_num) (by norm_num) (by norm_num)
      (by norm_num [roundHalfEven]) (by norm_num)
  have h12 : roundF32 12 = 12 :=
    roundF32_eval_pos _ _ 3 12582912 (by norm_num) (by norm_num) (by norm_num)
      (by norm_num [roundHalfEven]) (by norm_num)
  have h8 : roundF32 8 = 8 :=
    roundF32_eval_pos _ _ 3 8388608 (by norm_num) (by norm_num) (by norm_num)
      (by norm_num [roundHalfEven]) (by norm_num)
  have h22 : roundF32 22 = 22 :=
    roundF32_eval_pos _ _ 4 11534336 (by norm_num) (by norm_num) (by norm_num)
      (by norm_num [roundHalfEven]) (by norm_num)
  have ht12 := timeF32_identity 0 10 ExtrapolationMode.Reverse _ h12
  have ht8 := timeF32_identity 0 10 ExtrapolationMode.Reverse _ h8
  have ht22 := timeF32_identity 0 10 ExtrapolationMode.Reverse _ h22
  have hfloor12 : ⌊(10066330 / 2 ^ 23 : ℚ)⌋ = 1 := by
    rw [Int.floor_eq_iff]; norm_num
  have hfloor22 : ⌊(9227469 / 2 ^ 22 : ℚ)⌋ = 2 := by
    rw [Int.floor_eq_iff]; norm_num
  have hc12 : ControllerFunction.calculateF32 ⟨1, 0, 0, 10, ExtrapolationMode.Reverse⟩ 12
      = 8 - 1 / 2 ^ 21 := by
    rw [ControllerFunction.calculateF32_reverse_steps
      ⟨1, 0, 0, 10, ExtrapolationMode.Reverse⟩ 12 10 12 (10066330 / 2 ^ 23)
      (1677722 / 2 ^ 23) (8388610 / 2 ^ 22) rfl (by rw [ht12]; norm_num) hdelta (by norm_num)
      (by
        rw [ht12]
        exact roundF32_eval_pos _ _ 3 12582912 (by norm_num) (by norm_num) (by norm_num)
          (by norm_num [roundHalfEven]) (by norm_num))
      (roundF32_eval_pos _ _ 0 10066330 (by norm_num) (by norm_num) (by norm_num)
        (by norm_num [roundHalfEven]) (by norm_num))
      (by
        rw [hfloor12]
        exact roundF32_eval_pos _ _ (-3) 13421776 (by norm_num) (by norm_num) (by norm_num)
          (by norm_num [roundHalfEven]) (by norm_num))
      (roundF32_eval_pos _ _ 1 8388610 (by norm_num) (by norm_num) (by norm_num)
        (by norm_num [roundHalfEven]) (by norm_num))]
    rw [hfloor12, if_neg (by decide)]
    exact roundF32_eval_pos _ _ 2 16777215 (by norm_num) (by norm_num) (by norm_num)
      (by norm_num [roundHalfEven]) (by norm_num)
  have hc8 : ControllerFunction.calculateF32 ⟨1, 0, 0, 10, ExtrapolationMode.Reverse⟩ 8 = 8 := by
    rw [ControllerFunction.calculateF32_in_window _ 8 (by rw [ht8]; norm_num), ht8]
  have hc22 : ControllerFunction.calculateF32 ⟨1, 0, 0, 10, ExtrapolationMode.Reverse⟩ 22
      = 2 + 1 / 2 ^ 21 := by
    rw [ControllerFunction.calculateF32_reverse_steps
      ⟨1, 0, 0, 10, ExtrapolationMode.Reverse⟩ 22 10 22 (9227469 / 2 ^ 22)
      (838861 / 2 ^ 22) (8388610 / 2 ^ 22) rfl (by rw [ht22]; norm_num) hdelta (by norm_num)
      (by
        rw [ht22]
        exact roundF32_eval_pos _ _ 4 11534336 (by norm_num) (by norm_num) (by norm_num)
          (by norm_num [roundHalfEven]) (by norm_num))
      (roundF32_eval_pos _ _ 1 9227469 (by norm_num) (by norm_num) (by norm_num)
        (by norm_num [roundHalfEven]) (by norm_num))
      (by
        rw [hfloor22]
        exact roundF32_eval_pos _ _ (-3) 13421776 (by norm_num) (by norm_num) (by norm_num)
          (by norm_num [roundHalfEven]) (by norm_num))
      (roundF32_eval_pos _ _ 1 8388610 (by norm_num) (by norm_num) (by norm_num)
        (by norm_num [roundHalfEven]) (by norm_num))]
    rw [hfloor22, if_pos (by decide)]
    exact roundF32_eval_pos _ _ 1 8388610 (by norm_num) (by norm_num) (by norm_num)
      (by norm_num [roundHalfEven]) (by norm_num)
  refine ⟨?_, ?_, hc12, hc8, ?_, hc22, ?_⟩
  · rw [ht12]; norm_num
  · rw [ht8]; norm_num
  · rw [hc12, hc8]; norm_num
  · rw [hc22]; norm_num

/-- C4, amended.  In Reverse mode, for a window with
`delta = stopTime - startTime > 0`, every integer `k` and every `x`, an input
whose mapped time is `startTime + k * delta + x` and an input whose mapped time is
`startTime + k * delta - x` give the same result, provided that each of the two
inputs falls inside the window or is one at which no binary32 operation of the
Reverse branch rounds or overflows and `|floor(cycles)|` is in the range of
`int`.  The mapped times are those the code computes, without overflow. -/
theorem reverse_exact_mirror_symmetric (f : ControllerFunction) (v w : ℚ) (k : ℤ) (x : ℚ)
    (hmode : f.mExtrapolationMode = ExtrapolationMode.Reverse)
    (hdelta : 0 < f.mStopTime - f.mStartTime)
    (hv : f.timeF32 v = f.mStartTime + k * (f.mStopTime - f.mStartTime) + x)
    (hw : f.timeF32 w = f.mStartTime + k * (f.mStopTime - f.mStartTime) - x)
    (hvexact : f.timeFinite v ∧
      (¬ (f.mStartTime ≤ f.timeF32 v ∧ f.timeF32 v ≤ f.mStopTime) →
        f.reverseStepsExact (f.timeF32 v)))
    (hwexact : f.timeFinite w ∧
      (¬ (f.mStartTime ≤ f.timeF32 w ∧ f.timeF32 w ≤ f.mStopTime) →
        f.reverseStepsExact (f.timeF32 w))) :
    f.calculateF32 v = f.calculateF32 w := by
  have hne : f.mStopTime - f.mStartTime ≠ 0 := ne_of_gt hdelta
  have hvalue : ∀ u : ℚ,
      (¬ (f.mStartTime ≤ f.timeF32 u ∧ f.timeF32 u ≤ f.mStopTime) →
        f.reverseStepsExact (f.timeF32 u)) →
      f.calculateF32 u
        = f.mStartTime + triangle (f.cycles (f.timeF32 u)) * (f.mStopTime - f.mStartTime) := by
    intro u hu
    by_cases hin : f.mStartTime ≤ f.timeF32 u ∧ f.timeF32 u ≤ f.mStopTime
    · rw [f.calculateF32_in_window u hin, f.triangle_of_in_window _ hdelta hin]
    · rw [f.calculateF32_reverse_exact u hmode hdelta hin (hu hin), f.reflected_eq_triangle]
  rw [hvalue v hvexact.2, hvalue w hwexact.2]
  have hcv : f.cycles (f.timeF32 v) = k + x / (f.mStopTime - f.mStartTime) := by
    unfold ControllerFunction.cycles
    rw [hv]; field_simp; ring
  have hcw : f.cycles (f.timeF32 w) = k - x / (f.mStopTime - f.mStartTime) := by
    unfold ControllerFunction.cycles
    rw [hw]; field_simp; ring
  rw [hcv, hcw, triangle_mirror]

/-- Witness for C4 amended: window `[0, 8]`, boundary `k = 1`, offset `x = 2`: the
mapped times are 10 and 6.  Every operation of the Reverse branch at 10 is exact
(`cycles = 5/4`, remainder 2, result `8 - 2`), and 6 lies inside the window: both
inputs give 6. -/
theorem reverse_exact_mirror_symmetric_witness :
    ControllerFunction.calculateF32 ⟨1, 0, 0, 8, ExtrapolationMode.Reverse⟩ 6 = 6 ∧
    ControllerFunction.calculateF32 ⟨1, 0, 0, 8, ExtrapolationMode.Reverse⟩ 10
      = ControllerFunction.calculateF32 ⟨1, 0, 0, 8, ExtrapolationMode.Reverse⟩ 6 := by
  have h10 : roundF32 10 = 10 :=
    roundF32_eval_pos _ _ 3 10485760 (by norm_num) (by norm_num) (by norm_num)
      (by norm_num [roundHalfEven]) (by norm_num)
  have h6 : roundF32 6 = 6 :=
    roundF32_eval_pos _ _ 2 12582912 (by norm_num) (by norm_num) (by norm_num)
      (by norm_num [roundHalfEven]) (by norm_num)
  have h8 : roundF32 8 = 8 :=
    roundF32_eval_pos _ _ 3 8388608 (by norm_num) (by norm_num) (by norm_num)
      (by norm_num [roundHalfEven]) (by norm_num)
  have h2 : roundF32 2 = 2 :=
    roundF32_eval_pos _ _ 1 8388608 (by norm_num) (by norm_num) (by norm_num)
      (by norm_num [roundHalfEven]) (by norm_num)
  have hfive : roundF32 (5 / 4) = 5 / 4 :=
    roundF32_eval_pos _ _ 0 10485760 (by norm_num) (by norm_num) (by norm_num)
      (by norm_num [roundHalfEven]) (by norm_num)
  have hquarter : roundF32 (1 / 4) = 1 / 4 :=
    roundF32_eval_pos _ _ (-2) 8388608 (by norm_num) (by norm_num) (by norm_num)
      (by norm_num [roundHalfEven]) (by norm_num)
  have htv := timeF32_identity 0 8 ExtrapolationMode.Reverse _ h10
  have htw := timeF32_identity 0 8 ExtrapolationMode.Reverse _ h6
  have hcycles : ControllerFunction.cycles ⟨1, 0, 0, 8, ExtrapolationMode.Reverse⟩ 10
      = 5 / 4 := by
    norm_num [ControllerFunction.cycles]
  have hfloor : ⌊(5 / 4 : ℚ)⌋ = 1 := by
    rw [Int.floor_eq_iff]; norm_num
  have hrem : ControllerFunction.remainder ⟨1, 0, 0, 8, ExtrapolationMode.Reverse⟩ 10 = 2 := by
    unfold ControllerFunction.remainder
    rw [hcycles, hfloor]
    norm_num
  have hrefl : ControllerFunction.reflected ⟨1, 0, 0, 8, ExtrapolationMode.Reverse⟩ 10 = 6 := by
    unfold ControllerFunction.reflected
    rw [hrem, hcycles, hfloor, if_neg (by decide)]
    norm_num
  have hfinv : ControllerFunction.timeFinite ⟨1, 0, 0, 8, ExtrapolationMode.Reverse⟩ 10 := by
    unfold ControllerFunction.timeFinite
    simp only [one_mul, add_zero]
    rw [h10]
    norm_num [maxF32, abs_le]
  have hfinw : ControllerFunction.timeFinite ⟨1, 0, 0, 8, ExtrapolationMode.Reverse⟩ 6 := by
    unfold ControllerFunction.timeFinite
    simp only [one_mul, add_zero]
    rw [h6]
    norm_num [maxF32, abs_le]
  have hsteps : ControllerFunction.reverseStepsExact ⟨1, 0, 0, 8, ExtrapolationMode.Reverse⟩
      (ControllerFunction.timeF32 ⟨1, 0, 0, 8, ExtrapolationMode.Reverse⟩ 10) := by
    rw [htv]
    unfold ControllerFunction.reverseStepsExact
    rw [hrefl, hrem, hcycles, hfloor]
    refine ⟨exactF32_of_bounds _ (by norm_num [maxF32]) (by norm_num [maxF32]) ?_,
      exactF32_of_bounds _ (by norm_num [maxF32]) (by norm_num [maxF32]) ?_,
      exactF32_of_bounds _ (by norm_num [maxF32]) (by norm_num [maxF32]) hfive,
      exactF32_of_bounds _ (by norm_num [maxF32]) (by norm_num [maxF32]) ?_,
      exactF32_of_bounds _ (by norm_num [maxF32]) (by norm_num [maxF32]) h2,
      exactF32_of_bounds _ (by norm_num [maxF32]) (by norm_num [maxF32]) h6,
      by norm_num, by norm_num⟩
    · norm_num
      exact h8
    · norm_num
      exact h10
    · norm_num
      exact hquarter
  refine ⟨?_, ?_⟩
  · rw [ControllerFunction.calculateF32_in_window _ 6 (by rw [htw]; norm_num), htw]
  · exact reverse_exact_mirror_symmetric ⟨1, 0, 0, 8, ExtrapolationMode.Reverse⟩ 10 6 1 2 rfl
      (by norm_num) (by rw [htv]; norm_num) (by rw [htw]; norm_num)
      ⟨hfinv, fun _ => hsteps⟩
      ⟨hfinw, fun hout => absurd (by rw [htw]; norm_num) hout⟩

/-! ### Constant mode and degenerate windows -/

theorem ControllerFunction.calculate_constant (f : ControllerFunction) (v : ℚ)
    (hmode : f.mExtrapolationMode = ExtrapolationMode.Constant) :
    f.calculate v = clamp (f.time v) f.mStartTime f.mStopTime := by
  by_cases hin : f.mStartTime ≤ f.time v ∧ f.time v ≤ f.mStopTime
  · rw [f.calculate_in_window v hin]
    unfold clamp
    rw [max_eq_left hin.1, min_eq_left hin.2]
  · unfold ControllerFunction.time at hin
    simp only [ControllerFunction.calculate, ControllerFunction.time, ge_iff_le, hmode]
    rw [if_neg hin]

theorem clamp_eq_returns_clause (v lo hi : ℚ) (h : lo ≤ hi) :
    clamp v lo hi = if v < lo then lo else if hi < v then hi else v := by
  unfold clamp
  split_ifs with h1 h2
  · rw [max_eq_right h1.le, min_eq_left h]
  · rw [max_eq_left (by linarith), min_eq_right h2.le]
  · rw [max_eq_left (not_lt.mp h1), min_eq_left (not_lt.mp h2)]

theorem clamp_eq_max_min (v lo hi : ℚ) (h : lo ≤ hi) : clamp v lo hi = max lo (min v hi) := by
  rw [clamp_eq_returns_clause v lo hi h]
  split_ifs with h1 h2
  · rw [min_eq_left (by linarith), max_eq_left h1.le]
  · rw [min_eq_right h2.le, max_eq_right h]
  · rw [min_eq_left (not_lt.mp h2), max_eq_right (not_lt.mp h1)]

/-- C5. In Constant mode, for a window with `startTime ≤ stopTime` and every input
value, the result is `clamp(frequency * value + phase, startTime, stopTime)`: a
mapped time inside the window is returned unchanged, one below `startTime` gives
`startTime`, one above `stopTime` gives `stopTime`, and the result is
`max(startTime, min(t, stopTime))`; with frequency 1, phase 0 and window
`[0, 10]`, input -5 gives 0 and input 99 gives 10. -/
theorem constant_is_clamp :
    (∀ (f : ControllerFunction) (v : ℚ),
      f.mExtrapolationMode = ExtrapolationMode.Constant →
      f.mStartTime ≤ f.mStopTime →
      f.calculate v = clamp (f.mFrequency * v + f.mPhase) f.mStartTime f.mStopTime ∧
      (f.mStartTime ≤ f.time v ∧ f.time v ≤ f.mStopTime → f.calculate v = f.time v) ∧
      (f.time v < f.mStartTime → f.calculate v = f.mStartTime) ∧
      (f.mStopTime < f.time v → f.calculate v = f.mStopTime) ∧
      f.calculate v = max f.mStartTime (min (f.mFrequency * v + f.mPhase) f.mStopTime) ∧
      f.calculate v
        = if f.mFrequency * v + f.mPhase < f.mStartTime then f.mStartTime
          else if f.mStopTime < f.mFrequency * v + f.mPhase then f.mStopTime
          else f.mFrequency * v + f.mPhase) ∧
    ControllerFunction.calculate ⟨1, 0, 0, 10, ExtrapolationMode.Constant⟩ (-5) = 0 ∧
    ControllerFunction.calculate ⟨1, 0, 0, 10, ExtrapolationMode.Constant⟩ 99 = 10 := by
  refine ⟨fun f v hmode hle => ?_, ?_, ?_⟩
  · have hret : f.calculate v
        = if f.time v < f.mStartTime then f.mStartTime
          else if f.mStopTime < f.time v then f.mStopTime
          else f.time v := by
      rw [f.calculate_constant v hmode]
      exact clamp_eq_returns_clause _ _ _ hle
    refine ⟨f.calculate_constant v hmode, f.calculate_in_window v, ?_, ?_, ?_, hret⟩
    · intro hlt
      rw [hret, if_pos hlt]
    · intro hgt
      rw [hret, if_neg (not_lt.mpr (by linarith)), if_pos hgt]
    · rw [f.calculate_constant v hmode]
      exact clamp_eq_max_min _ _ _ hle
  · norm_num [ControllerFunction.calculate, clamp]
  · norm_num [ControllerFunction.calculate, clamp]

/-- Witness for C5: window `[0, 10]`, frequency 2, phase 1, input 7 (mapped
time 15): the result is `clamp(15, 0, 10)`. -/
theorem constant_is_clamp_witness :
    ControllerFunction.calculate ⟨2, 1, 0, 10, ExtrapolationMode.Constant⟩ 7
      = clamp (2 * 7 + 1) 0 10 :=
  (constant_is_clamp.1 ⟨2, 1, 0, 10, ExtrapolationMode.Constant⟩ 7 rfl (by norm_num)).1

/-- C6, as stated, fails.  Constant mode, frequency 1, phase 0, `startTime = 10`,
`stopTime = 0` (so `stopTime ≤ startTime`), input 20: the window test fails,
the Constant branch evaluates `std::clamp(20, 10, 0)`, and the result is
`stopTime = 0`, not `startTime = 10`. -/
theorem degenerate_window_counterexample :
    (ControllerFunction.mk 1 0 10 0 ExtrapolationMode.Constant).mStopTime
      ≤ (ControllerFunction.mk 1 0 10 0 ExtrapolationMode.Constant).mStartTime ∧
    ControllerFunction.calculate ⟨1, 0, 10, 0, ExtrapolationMode.Constant⟩ 20 = 0 ∧
    ControllerFunction.calculate ⟨1, 0, 10, 0, ExtrapolationMode.Constant⟩ 20
      ≠ (ControllerFunction.mk 1 0 10 0 ExtrapolationMode.Constant).mStartTime := by
  refine ⟨by norm_num, ?_, ?_⟩ <;> norm_num [ControllerFunction.calculate, clamp]

/-- C6, amended.  For a degenerate window (`stopTime ≤ startTime`), `calculate`
returns `startTime` for every input in Cycle mode and in Reverse mode, and in
Constant mode when `stopTime = startTime`. -/
theorem degenerate_window_returns_start (f : ControllerFunction) (v : ℚ)
    (hdeg : f.mStopTime ≤ f.mStartTime)
    (hcase : f.mExtrapolationMode = ExtrapolationMode.Cycle ∨
      f.mExtrapolationMode = ExtrapolationMode.Reverse ∨
      (f.mExtrapolationMode = ExtrapolationMode.Constant ∧ f.mStopTime = f.mStartTime)) :
    f.calculate v = f.mStartTime := by
  by_cases hin : f.mStartTime ≤ f.time v ∧ f.time v ≤ f.mStopTime
  · rw [f.calculate_in_window v hin]
    linarith [hin.1, hin.2]
  · have hd : f.mStopTime - f.mStartTime ≤ 0 := by linarith
    rcases hcase with hmode | hmode | ⟨hmode, heq⟩
    · unfold ControllerFunction.time at hin
      simp only [ControllerFunction.calculate, ge_iff_le, hmode]
      rw [if_neg hin, if_pos hd]
    · unfold ControllerFunction.time at hin
      simp only [ControllerFunction.calculate, ge_iff_le, hmode]
      rw [if_neg hin, if_pos hd]
    · rw [f.calculate_constant v hmode, heq]
      unfold clamp
      exact min_eq_right (le_max_right _ _)

/-- Witness for C6 amended: Reverse mode, `startTime = 10`, `stopTime = 0`, input
20: the result is 10. -/
theorem degenerate_window_returns_start_witness :
    ControllerFunction.calculate ⟨1, 0, 10, 0, ExtrapolationMode.Reverse⟩ 20 = 10 :=
  degenerate_window_returns_start ⟨1, 0, 10, 0, ExtrapolationMode.Reverse⟩ 20 (by norm_num)
    (Or.inr (Or.inl rfl))

/-! ### VisController -/

theorem VisController.calculate_legacy (c : VisController) (t : ℚ)
    (hno : c.mInterpolator.empty = true) :
    c.calculate t
      = match c.mData with
        | [] => true
        | first :: rest => VisController.scan t first rest := by
  unfold VisController.calculate
  rw [if_neg (by simp [hno])]

theorem VisController.scan_latest (t : ℚ) :
    ∀ (rest : List VisKey) (prev k : VisKey),
      (prev :: rest).Pairwise (fun a b => a.time ≤ b.time) →
      prev.time ≤ t →
      ((prev :: rest).filter (fun key => decide (key.time ≤ t))).getLast? = some k →
      VisController.scan t prev rest = k.isSet := by
  intro rest
  induction rest with
  | nil =>
    intro prev k _ hprev hk
    rw [List.filter_cons_of_pos (by simpa using hprev)] at hk
    simp only [List.filter_nil, List.getLast?_singleton, Option.some.injEq] at hk
    simp [VisController.scan, hk]
  | cons key rest ih =>
    intro prev k hsorted hprev hk
    rw [List.filter_cons_of_pos (by simpa using hprev)] at hk
    have hsorted' := (List.pairwise_cons.mp hsorted).2
    unfold VisController.scan
    by_cases hgt : key.time > t
    · rw [if_pos hgt]
      have hnil : (key :: rest).filter (fun key => decide (key.time ≤ t)) = [] := by
        rw [List.filter_eq_nil_iff]
        intro x hx
        have hle : key.time ≤ x.time := by
          rcases List.mem_cons.mp hx with rfl | hmem
          · exact le_refl _
          · exact (List.pairwise_cons.mp hsorted').1 x hmem
        simpa using lt_of_lt_of_le hgt hle
      rw [hnil] at hk
      simp only [List.getLast?_singleton, Option.some.injEq] at hk
      rw [hk]
    · rw [if_neg hgt]
      have hkey : key.time ≤ t := not_lt.mp hgt
      apply ih key k hsorted' hkey
      rw [List.filter_cons_of_pos (by simpa using hkey)] at hk ⊢
      rw [List.getLast?_cons_cons] at hk
      exact hk

theorem VisController.scan_back (t : ℚ) :
    ∀ (rest : List VisKey) (prev last : VisKey),
      (∀ key ∈ rest, ¬ key.time > t) →
      (prev :: rest).getLast? = some last →
      VisController.scan t prev rest = last.isSet := by
  intro rest
  induction rest with
  | nil =>
    intro prev last _ hlast
    simp only [List.getLast?_singleton, Option.some.injEq] at hlast
    simp [VisController.scan, hlast]
  | cons key rest ih =>
    intro prev last hall hlast
    unfold VisController.scan
    rw [if_neg (hall key (List.mem_cons_self _ _))]
    rw [List.getLast?_cons_cons] at hlast
    exact ih key last (fun x hx => hall x (List.mem_cons_of_mem _ hx)) hlast

/-- C7. On the legacy step list (no interpolator bound), `VisController::calculate`
returns true for the empty list; for a non-empty list sorted by time and every
time `t` it returns the `isSet` flag of the latest key whose time is `≤ t` (when
`t` is before every key there is no such key, and the flag is the first key's),
and the last key's flag when no key has a time `> t`.  With the list
`[(0, true), (2, false), (5, true)]` it is true at 1, false at 3 and true at 6, and
with hide-mask 0 the node mask written by `operator()` is `~0`, `0`, `~0`. -/
theorem vis_legacy_latest_key :
    (∀ (c : VisController) (t : ℚ),
      c.mInterpolator.empty = true → c.mData = [] → c.calculate t = true) ∧
    (∀ (c : VisController) (t : ℚ) (first : VisKey) (rest : List VisKey),
      c.mInterpolator.empty = true →
      c.mData = first :: rest →
      c.mData.Pairwise (fun a b => a.time ≤ b.time) →
      c.calculate t
        = (((c.mData.filter (fun key => decide (key.time ≤ t))).getLast?).getD first).isSet) ∧
    (∀ (c : VisController) (t : ℚ) (last : VisKey),
      c.mInterpolator.empty = true →
      (∀ key ∈ c.mData, ¬ key.time > t) →
      c.mData.getLast? = some last →
      c.calculate t = last.isSet) ∧
    VisController.calculate
      ⟨⟨none, ⟨1, 0, 0, 10, ExtrapolationMode.Constant⟩⟩,
        [⟨0, true⟩, ⟨2, false⟩, ⟨5, true⟩], ⟨[], 0, step⟩, 0⟩ 1 = true ∧
    VisController.calculate
      ⟨⟨none, ⟨1, 0, 0, 10, ExtrapolationMode.Constant⟩⟩,
        [⟨0, true⟩, ⟨2, false⟩, ⟨5, true⟩], ⟨[], 0, step⟩, 0⟩ 3 = false ∧
    VisController.calculate
      ⟨⟨none, ⟨1, 0, 0, 10, ExtrapolationMode.Constant⟩⟩,
        [⟨0, true⟩, ⟨2, false⟩, ⟨5, true⟩], ⟨[], 0, step⟩, 0⟩ 6 = true ∧
    VisController.operator
      ⟨⟨some 1, ⟨1, 0, 0, 10, ExtrapolationMode.Constant⟩⟩,
        [⟨0, true⟩, ⟨2, false⟩, ⟨5, true⟩], ⟨[], 0, step⟩, 0⟩ 7 = 2 ^ 32 - 1 ∧
    VisController.operator
      ⟨⟨some 3, ⟨1, 0, 0, 10, ExtrapolationMode.Constant⟩⟩,
        [⟨0, true⟩, ⟨2, false⟩, ⟨5, true⟩], ⟨[], 0, step⟩, 0⟩ 7 = 0 ∧
    VisController.operator
      ⟨⟨some 6, ⟨1, 0, 0, 10, ExtrapolationMode.Constant⟩⟩,
        [⟨0, true⟩, ⟨2, false⟩, ⟨5, true⟩], ⟨[], 0, step⟩, 0⟩ 7 = 2 ^ 32 - 1 := by
  refine ⟨?_, ?_, ?_, ?_, ?_, ?_, ?_, ?_, ?_⟩
  · intro c t hno hnil
    rw [c.calculate_legacy t hno, hnil]
  · intro c t first rest hno hdata hsorted
    rw [c.calculate_legacy t hno]
    rw [hdata] at hsorted ⊢
    simp only
    by_cases hfirst : first.time ≤ t
    · cases hk : ((first :: rest).filter (fun key => decide (key.time ≤ t))).getLast? with
      | none =>
        rw [List.filter_cons_of_pos (by simpa using hfirst)] at hk
        simp at hk
      | some k =>
        rw [Option.getD_some]
        exact VisController.scan_latest t rest first k hsorted hfirst hk
    · have hnil : (first :: rest).filter (fun key => decide (key.time ≤ t)) = [] := by
        rw [List.filter_eq_nil_iff]
        intro x hx
        have hle : first.time ≤ x.time := by
          rcases List.mem_cons.mp hx with rfl | hmem
          · exact le_refl _
          · exact (List.pairwise_cons.mp hsorted).1 x hmem
        simpa using lt_of_lt_of_le (not_le.mp hfirst) hle
      rw [hnil, List.getLast?_nil, Option.getD_none]
      cases rest with
      | nil => rfl
      | cons key rest =>
        unfold VisController.scan
        rw [if_pos]
        exact lt_of_lt_of_le (not_le.mp hfirst)
          ((List.pairwise_cons.mp hsorted).1 key (List.mem_cons_self _ _))
  · intro c t last hno hall hlast
    rw [c.calculate_legacy t hno]
    cases hdata : c.mData with
    | nil => rw [hdata] at hlast; simp at hlast
    | cons first rest =>
      rw [hdata] at hall hlast
      exact VisController.scan_back t rest first last
        (fun x hx => hall x (List.mem_cons_of_mem _ hx)) hlast
  all_goals
    norm_num [VisController.calculate, VisController.operator, VisController.scan,
      ValueInterpolator.empty, Controller.hasInput, Controller.getInputValue,
      ControllerFunction.calculate]

/-- Witness for C7: the list `[(0, true), (2, false), (2, true), (5, false)]` with
a tie at time 2, sampled at 2: the latest key with time `≤ 2` is the second of
the tied keys, and the result is its flag, true. -/
theorem vis_legacy_latest_key_witness :
    VisController.calculate
      ⟨⟨none, ⟨1, 0, 0, 10, ExtrapolationMode.Constant⟩⟩,
        [⟨0, true⟩, ⟨2, false⟩, ⟨2, true⟩, ⟨5, false⟩], ⟨[], 0, step⟩, 0⟩ 2 = true :=
  (vis_legacy_latest_key.2.1
    ⟨⟨none, ⟨1, 0, 0, 10, ExtrapolationMode.Constant⟩⟩,
      [⟨0, true⟩, ⟨2, false⟩, ⟨2, true⟩, ⟨5, false⟩], ⟨[], 0, step⟩, 0⟩ 2 ⟨0, true⟩ _
    rfl rfl (by simp; norm_num)).trans (by simp [List.filter]; norm_num)

/-! ### PathController -/

theorem fmod_one_of_neg (p : ℚ) (hp : p < 0) : fmod p 1 = p - ⌈p⌉ := by
  unfold fmod toInt
  rw [div_one, if_neg (not_le.mpr hp), mul_one]

theorem fmod_one_of_nonneg (p : ℚ) (hp : 0 ≤ p) : fmod p 1 = Int.fract p := by
  unfold fmod toInt
  rw [div_one, if_pos hp, mul_one]
  rfl

/-- C8, as stated, fails.  With a percent track whose sample is 1 (the single key
`(0, 1)`), `getPercent` returns 1: neither `percent < 0` nor `percent > 1` holds
and the value passes through.  With a sample of -1 (the single key `(0, -1)`),
`fmod(-1, 1) + 1` is again 1.  Neither result is below 1. -/
theorem getPercent_counterexample :
    PathController.getPercent
      ⟨⟨none, ⟨1, 0, 0, 10, ExtrapolationMode.Cycle⟩⟩, ⟨[], (0, 0, 0), step⟩,
        ⟨[(0, 1)], 1, lerp⟩, 0⟩ 0 = 1 ∧
    PathController.getPercent
      ⟨⟨none, ⟨1, 0, 0, 10, ExtrapolationMode.Cycle⟩⟩, ⟨[], (0, 0, 0), step⟩,
        ⟨[(0, -1)], 1, lerp⟩, 0⟩ 0 = 1 ∧
    ¬ (PathController.getPercent
      ⟨⟨none, ⟨1, 0, 0, 10, ExtrapolationMode.Cycle⟩⟩, ⟨[], (0, 0, 0), step⟩,
        ⟨[(0, 1)], 1, lerp⟩, 0⟩ 0 < 1) := by
  have h1 : PathController.getPercent
      ⟨⟨none, ⟨1, 0, 0, 10, ExtrapolationMode.Cycle⟩⟩, ⟨[], (0, 0, 0), step⟩,
        ⟨[(0, 1)], 1, lerp⟩, 0⟩ 0 = 1 := by
    norm_num [PathController.getPercent, ValueInterpolator.interpKey]
  have hceil : ⌈(-1 : ℚ)⌉ = -1 := by
    rw [Int.ceil_eq_iff]; norm_num
  refine ⟨h1, ?_, ?_⟩
  · norm_num [PathController.getPercent, ValueInterpolator.interpKey, fmod, toInt, hceil]
  · rw [h1]
    norm_num

/-- In binary32 a sample that is not an integer can give 1 as well: for the
sample `-2^-30` the sum `fmod(-2^-30, 1) + 1 = 1 - 2^-30` rounds to 1. -/
theorem getPercentF32_small_negative :
    PathController.getPercentF32
      ⟨⟨none, ⟨1, 0, 0, 10, ExtrapolationMode.Cycle⟩⟩, ⟨[], (0, 0, 0), step⟩,
        ⟨[(0, -1 / 2 ^ 30)], 1, lerp⟩, 0⟩ 0 = 1 := by
  have hceil : ⌈(-1 / 2 ^ 30 : ℚ)⌉ = 0 := by
    rw [Int.ceil_eq_iff]; norm_num
  have hsum : fmod (-1 / 2 ^ 30) 1 + 1 = 1 - 1 / 2 ^ 30 := by
    rw [fmod_one_of_neg _ (by norm_num), hceil]
    norm_num
  have hround : roundF32 (1 - 1 / 2 ^ 30) = 1 :=
    roundF32_eval_pos _ _ (-1) 16777216 (by norm_num) (by norm_num) (by norm_num)
      (by norm_num [roundHalfEven]) (by norm_num)
  have hkey : ValueInterpolator.interpKey ⟨[((0 : ℚ), (-1 / 2 ^ 30 : ℚ))], 1, lerp⟩ 0
      = -1 / 2 ^ 30 := by
    norm_num [ValueInterpolator.interpKey]
  unfold PathController.getPercentF32
  simp only [hkey]
  rw [if_pos (by norm_num), hsum, hround]

/-- C8, amended.  `PathController::getPercent` returns a value in the closed
interval `[0, 1]` for every sampled percent value, in exact arithmetic and in
binary32 arithmetic alike. -/
theorem getPercent_mem_closed_unit (c : PathController) (time : ℚ) :
    (0 ≤ c.getPercent time ∧ c.getPercent time ≤ 1) ∧
    (0 ≤ c.getPercentF32 time ∧ c.getPercentF32 time ≤ 1) := by
  unfold PathController.getPercent PathController.getPercentF32
  generalize c.mPercent.interpKey time = p
  simp only
  by_cases hneg : p < 0
  · rw [if_pos hneg, if_pos hneg, fmod_one_of_neg p hneg]
    have h1 := Int.ceil_lt_add_one p
    have h2 := Int.le_ceil p
    exact ⟨⟨by linarith, by linarith⟩, roundF32_mem_unit _ (by linarith) (by linarith)⟩
  · rw [if_neg hneg, if_neg hneg]
    have h0 : 0 ≤ p := not_lt.mp hneg
    by_cases hgt : p > 1
    · rw [if_pos hgt, fmod_one_of_nonneg p h0]
      exact ⟨⟨Int.fract_nonneg p, (Int.fract_lt_one p).le⟩,
        ⟨Int.fract_nonneg p, (Int.fract_lt_one p).le⟩⟩
    · rw [if_neg hgt]
      exact ⟨⟨h0, not_lt.mp hgt⟩, ⟨h0, not_lt.mp hgt⟩⟩

/-! ### FlipController -/

theorem FlipController.apply_written {Tex : Type} (c : FlipController Tex) (stateset : StateSet Tex)
    (hin : c.hasInput = true) (hne : c.mTextures.isEmpty = false) :
    (c.apply stateset).textureAttribute c.mTexSlot = c.mTextures[c.curTexture]? := by
  unfold FlipController.apply
  rw [dif_pos ⟨hin, hne⟩]
  simp [StateSet.setTextureAttribute]

theorem FlipController.apply_skipped {Tex : Type} (c : FlipController Tex) (stateset : StateSet Tex)
    (h : c.hasInput = false ∨ c.mTextures.isEmpty = true) :
    c.apply stateset = stateset := by
  unfold FlipController.apply
  rw [dif_neg]
  rintro ⟨h1, h2⟩
  rcases h with h | h
  · rw [h] at h1; exact Bool.noConfusion h1
  · rw [h] at h2; exact Bool.noConfusion h2

theorem intModSize_of_nonneg (x : ℚ) (n : ℕ) (h0 : 0 ≤ x) (hx : x < 2 ^ 31) :
    intModSize x n = floorModAsSpecified x n := by
  unfold intModSize floorModAsSpecified toSizeT toInt
  rw [if_pos h0]
  have hf0 : 0 ≤ ⌊x⌋ := Int.floor_nonneg.mpr h0
  have hf1 : ⌊x⌋ < 2 ^ 64 := by
    have : ⌊x⌋ < 2 ^ 31 := by
      rw [Int.floor_lt]; exact_mod_cast hx
    omega
  rw [Int.emod_eq_of_lt hf0 hf1]
  obtain ⟨m, hm⟩ := Int.eq_ofNat_of_zero_le hf0
  rw [hm]
  simp only [Int.toNat_ofNat]
  rw [← Int.ofNat_emod, Int.toNat_ofNat]

theorem toInt_of_nonneg_eq (x : ℚ) (n : ℤ) (h0 : 0 ≤ x) (h1 : (n : ℚ) ≤ x) (h2 : x < n + 1) :
    toInt x = n := by
  unfold toInt
  rw [if_pos h0, Int.floor_eq_iff]
  exact ⟨h1, h2⟩

theorem toInt_of_neg_eq (x : ℚ) (n : ℤ) (h0 : x < 0) (h1 : (n : ℚ) - 1 < x) (h2 : x ≤ n) :
    toInt x = n := by
  unfold toInt
  rw [if_neg (not_le.mpr h0), Int.ceil_eq_iff]
  exact ⟨h1, h2⟩

theorem Controller.getInputValue_in_window (c : Controller) (v : ℚ)
    (hsrc : c.mSource = some v)
    (hin : c.mFunction.mStartTime ≤ c.mFunction.time v ∧ c.mFunction.time v ≤ c.mFunction.mStopTime) :
    c.getInputValue = c.mFunction.time v := by
  unfold Controller.getInputValue
  rw [hsrc]
  exact c.mFunction.calculate_in_window v hin

theorem scenarioFlip_getInputValue (t delta : ℚ) (data : FloatInterpolator)
    (hlo : -10 ≤ t) (hhi : t ≤ 10) :
    (scenarioFlip t delta data).getInputValue = t := by
  have htime : (scenarioFlip t delta data).mFunction.time t = t := by
    simp [scenarioFlip, ControllerFunction.time]
  rw [Controller.getInputValue_in_window _ t rfl
    (by rw [htime]; exact ⟨by simpa [scenarioFlip] using hlo, by simpa [scenarioFlip] using hhi⟩),
    htime]

theorem scenarioFlip_apply_delta (t delta : ℚ) (data : FloatInterpolator) (k : ℤ)
    (hlo : -10 ≤ t) (hhi : t ≤ 10) (hdelta : delta ≠ 0) (hk : toInt (t / delta) = k) :
    ((scenarioFlip t delta data).apply emptyStateSet).textureAttribute 0
      = ["A", "B", "C"][(k % 2 ^ 64).toNat % 3]? := by
  have hw := (scenarioFlip t delta data).apply_written emptyStateSet rfl rfl
  have hcur : (scenarioFlip t delta data).curTexture = (k % 2 ^ 64).toNat % 3 := by
    unfold FlipController.curTexture intModSize
    rw [scenarioFlip_getInputValue t delta data hlo hhi]
    have hd : (scenarioFlip t delta data).mDelta = delta := rfl
    rw [hd, if_pos hdelta, hk]
    rfl
  rw [hcur] at hw
  exact hw

theorem scenarioFlip_apply_interp (t : ℚ) (data : FloatInterpolator) (k : ℤ)
    (hlo : -10 ≤ t) (hhi : t ≤ 10) (hk : toInt (data.interpKey t) = k) :
    ((scenarioFlip t 0 data).apply emptyStateSet).textureAttribute 0
      = ["A", "B", "C"][(k % 2 ^ 64).toNat % 3]? := by
  have hw := (scenarioFlip t 0 data).apply_written emptyStateSet rfl rfl
  have hcur : (scenarioFlip t 0 data).curTexture = (k % 2 ^ 64).toNat % 3 := by
    unfold FlipController.curTexture intModSize
    rw [scenarioFlip_getInputValue t 0 data hlo hhi]
    have hd : (scenarioFlip t 0 data).mDelta = 0 := rfl
    have hdata : (scenarioFlip t 0 data).mData = data := rfl
    rw [hd, if_neg (by simp), hdata, hk]
    rfl
  rw [hcur] at hw
  exact hw

/-- C9, as stated, fails.  Textures `[A, B, C]`, `delta = 1/2`, no interpolator,
sampled time `-1/4`: `t / delta = -1/2`, `int(-1/2)` is 0 (truncation toward
zero), so the texture written is `T[0] = A`; the stated index
`floor(-1/2) mod 3 = 2` names `C`. -/
theorem flip_floor_counterexample :
    (scenarioFlip (-1 / 4) (1 / 2) noInterpolator).getInputValue = -1 / 4 ∧
    ((scenarioFlip (-1 / 4) (1 / 2) noInterpolator).apply emptyStateSet).textureAttribute 0
      = some "A" ∧
    ["A", "B", "C"][floorModAsSpecified ((-1 / 4) / (1 / 2)) 3]? = some "C" := by
  have hfloor : ⌊((-1 / 4 : ℚ) / (1 / 2))⌋ = -1 := by
    rw [Int.floor_eq_iff]; norm_num
  refine ⟨scenarioFlip_getInputValue _ _ _ (by norm_num) (by norm_num), ?_, ?_⟩
  · rw [scenarioFlip_apply_delta (-1 / 4) (1 / 2) noInterpolator 0 (by norm_num) (by norm_num)
      (by norm_num) (toInt_of_neg_eq _ 0 (by norm_num) (by norm_num) (by norm_num))]
    rfl
  · unfold floorModAsSpecified
    rw [hfloor]
    decide

/-- C9, amended.  With an input bound, a non-empty texture list `T` of length `n`
and `delta ≠ 0`, whenever the quotient `t / delta` of the sampled time is
non-negative and within the range of `int` (below `2^31`), the texture written to
the slot is `T[floor(t / delta) mod n]`.  With textures `[A, B, C]` and
`delta = 1/2`, the times 0, 3/5, 11/10 and 8/5 give `A`, `B`, `C`, `A`. -/
theorem flip_index_of_nonneg_quotient :
    (∀ (Tex : Type) (c : FlipController Tex) (stateset : StateSet Tex),
      c.hasInput = true →
      c.mTextures.isEmpty = false →
      c.mDelta ≠ 0 →
      0 ≤ c.getInputValue / c.mDelta →
      c.getInputValue / c.mDelta < 2 ^ 31 →
      (c.apply stateset).textureAttribute c.mTexSlot
        = c.mTextures[floorModAsSpecified (c.getInputValue / c.mDelta) c.mTextures.length]?) ∧
    ((scenarioFlip 0 (1 / 2) noInterpolator).apply emptyStateSet).textureAttribute 0
      = some "A" ∧
    ((scenarioFlip (3 / 5) (1 / 2) noInterpolator).apply emptyStateSet).textureAttribute 0
      = some "B" ∧
    ((scenarioFlip (11 / 10) (1 / 2) noInterpolator).apply emptyStateSet).textureAttribute 0
      = some "C" ∧
    ((scenarioFlip (8 / 5) (1 / 2) noInterpolator).apply emptyStateSet).textureAttribute 0
      = some "A" := by
  refine ⟨fun Tex c stateset hin hne hdelta h0 h1 => ?_, ?_, ?_, ?_, ?_⟩
  · rw [c.apply_written stateset hin hne]
    unfold FlipController.curTexture
    rw [if_pos hdelta, intModSize_of_nonneg _ _ h0 h1]
  · rw [scenarioFlip_apply_delta 0 (1 / 2) noInterpolator 0 (by norm_num) (by norm_num)
      (by norm_num) (toInt_of_nonneg_eq _ 0 (by norm_num) (by norm_num) (by norm_num))]
    rfl
  · rw [scenarioFlip_apply_delta (3 / 5) (1 / 2) noInterpolator 1 (by norm_num) (by norm_num)
      (by norm_num) (toInt_of_nonneg_eq _ 1 (by norm_num) (by norm_num) (by norm_num))]
    rfl
  · rw [scenarioFlip_apply_delta (11 / 10) (1 / 2) noInterpolator 2 (by norm_num) (by norm_num)
      (by norm_num) (toInt_of_nonneg_eq _ 2 (by norm_num) (by norm_num) (by norm_num))]
    rfl
  · rw [scenarioFlip_apply_delta (8 / 5) (1 / 2) noInterpolator 3 (by norm_num) (by norm_num)
      (by norm_num) (toInt_of_nonneg_eq _ 3 (by norm_num) (by norm_num) (by norm_num))]
    rfl

/-- Witness for C9 amended: textures `[A, B, C]`, `delta = 1/2`, sampled time
`9/4`: the quotient is `9/2` and the texture written is `T[floor(9/2) mod 3]`. -/
theorem flip_index_of_nonneg_quotient_witness :
    ((scenarioFlip (9 / 4) (1 / 2) noInterpolator).apply emptyStateSet).textureAttribute 0
      = ["A", "B", "C"][floorModAsSpecified
          ((scenarioFlip (9 / 4) (1 / 2) noInterpolator).getInputValue / (1 / 2)) 3]? :=
  flip_index_of_nonneg_quotient.1 String (scenarioFlip (9 / 4) (1 / 2) noInterpolator)
    emptyStateSet rfl rfl (by norm_num [scenarioFlip])
    (by rw [scenarioFlip_getInputValue _ _ _ (by norm_num) (by norm_num)]; norm_num [scenarioFlip])
    (by rw [scenarioFlip_getInputValue _ _ _ (by norm_num) (by norm_num)]; norm_num [scenarioFlip])

/-- C10, as stated, fails.  (1) With an interpolator present whose sample is 2
(the single key `(0, 2)`), `delta = 1/2` and sampled time 0, the code branches on
`delta` first and writes `T[int(0 / (1/2)) mod 3] = A`, while the stated index
`floor(interp(t)) mod 3 = 2` names `C`.  (2) With no interpolator and
`delta = 0`, the code takes the interpolator branch, samples the default value 0
and writes `T[0] = A` onto a slot that held no texture. -/
theorem flip_source_selection_counterexample :
    ((scenarioFlip 0 (1 / 2) ⟨[(0, 2)], 0, lerp⟩).apply emptyStateSet).textureAttribute 0
      = some "A" ∧
    ["A", "B", "C"][floorModAsSpecified
        (ValueInterpolator.interpKey ⟨[(0, 2)], 0, lerp⟩ 0) 3]? = some "C" ∧
    ((scenarioFlip 0 0 noInterpolator).apply emptyStateSet).textureAttribute 0 = some "A" ∧
    emptyStateSet.textureAttribute 0 = none := by
  refine ⟨?_, ?_, ?_, rfl⟩
  · rw [scenarioFlip_apply_delta 0 (1 / 2) _ 0 (by norm_num) (by norm_num)
      (by norm_num) (toInt_of_nonneg_eq _ 0 (by norm_num) (by norm_num) (by norm_num))]
    rfl
  · have hs : ValueInterpolator.interpKey (⟨[(0, 2)], 0, lerp⟩ : FloatInterpolator) 0 = 2 := by
      norm_num [ValueInterpolator.interpKey]
    have hfloor : ⌊(2 : ℚ)⌋ = 2 := by
      rw [Int.floor_eq_iff]; norm_num
    rw [hs]
    unfold floorModAsSpecified
    rw [hfloor]
    decide
  · have hs : noInterpolator.interpKey 0 = 0 := by
      simp [ValueInterpolator.interpKey, noInterpolator]
    rw [scenarioFlip_apply_interp 0 noInterpolator 0 (by norm_num) (by norm_num)
      (by rw [hs]; exact toInt_of_nonneg_eq _ 0 (by norm_num) (by norm_num) (by norm_num))]
    rfl

theorem ValueInterpolator.interpKey_of_empty {V : Type} (i : ValueInterpolator V) (t : ℚ)
    (h : i.empty = true) : i.interpKey t = i.mDefaultVal := by
  unfold ValueInterpolator.empty at h
  have hnil : i.mKeys = [] := List.isEmpty_iff.mp h
  unfold ValueInterpolator.interpKey
  rw [hnil]
  rfl

/-- C10, amended.  `FlipController::apply` consults `delta` first.  With an input
bound and a non-empty texture list of length `n`: whenever `delta ≠ 0` the
texture index is `int(t / delta) mod n`, whatever the interpolator holds; the
interpolator is consulted only when `delta = 0`, and the index is then
`int(interp(t)) mod n`; when `delta = 0` and the interpolator has no keys, the
sample is its default value and a texture is still written.  Each part is
stated for a converted value within the range of `int`, where `int(x) mod n` is
`floor(x) mod n` for `0 ≤ x`. -/
theorem flip_source_selection :
    (∀ (Tex : Type) (c : FlipController Tex) (stateset : StateSet Tex),
      c.hasInput = true → c.mTextures.isEmpty = false → c.mDelta ≠ 0 →
      inIntRange (c.getInputValue / c.mDelta) →
      (c.apply stateset).textureAttribute c.mTexSlot
        = c.mTextures[intModSize (c.getInputValue / c.mDelta) c.mTextures.length]?) ∧
    (∀ (Tex : Type) (c : FlipController Tex) (stateset : StateSet Tex),
      c.hasInput = true → c.mTextures.isEmpty = false → c.mDelta = 0 →
      inIntRange (c.mData.interpKey c.getInputValue) →
      (c.apply stateset).textureAttribute c.mTexSlot
        = c.mTextures[intModSize (c.mData.interpKey c.getInputValue) c.mTextures.length]?) ∧
    (∀ (Tex : Type) (c : FlipController Tex) (stateset : StateSet Tex),
      c.hasInput = true → c.mTextures.isEmpty = false → c.mDelta = 0 → c.mData.empty = true →
      inIntRange c.mData.mDefaultVal →
      (c.apply stateset).textureAttribute c.mTexSlot
        = c.mTextures[intModSize c.mData.mDefaultVal c.mTextures.length]? ∧
      ∃ texture ∈ c.mTextures, (c.apply stateset).textureAttribute c.mTexSlot = some texture) ∧
    (∀ (x : ℚ) (n : ℕ), 0 ≤ x → x < 2 ^ 31 → intModSize x n = floorModAsSpecified x n) := by
  refine ⟨fun Tex c stateset hin hne hdelta _ => ?_, fun Tex c stateset hin hne hdelta _ => ?_,
    fun Tex c stateset hin hne hdelta hempty _ => ?_, intModSize_of_nonneg⟩
  · rw [c.apply_written stateset hin hne]
    unfold FlipController.curTexture
    rw [if_pos hdelta]
  · rw [c.apply_written stateset hin hne]
    unfold FlipController.curTexture
    rw [if_neg (not_not.mpr hdelta)]
  · have hidx : c.curTexture = intModSize c.mData.mDefaultVal c.mTextures.length := by
      unfold FlipController.curTexture
      rw [if_neg (not_not.mpr hdelta), c.mData.interpKey_of_empty _ hempty]
    have hpos : 0 < c.mTextures.length := List.length_pos.mpr (by simpa using hne)
    have hlt : c.curTexture < c.mTextures.length := by
      rw [hidx]
      exact Nat.mod_lt _ hpos
    refine ⟨?_, c.mTextures.get ⟨c.curTexture, hlt⟩, List.get_mem _ _ _, ?_⟩
    · rw [c.apply_written stateset hin hne, hidx]
    · rw [c.apply_written stateset hin hne]
      exact List.getElem?_eq_getElem hlt

/-- Witness for C10 amended: an interpolator with sample 2 and `delta = 1/2` at
sampled time 0: the quotient 0 is within the range of `int` and the index is
`int(0 / (1/2)) mod 3`, from `delta`. -/
theorem flip_source_selection_witness :
    ((scenarioFlip 0 (1 / 2) ⟨[(0, 2)], 0, lerp⟩).apply emptyStateSet).textureAttribute 0
      = ["A", "B", "C"][intModSize
          ((scenarioFlip 0 (1 / 2) ⟨[(0, 2)], 0, lerp⟩).getInputValue / (1 / 2)) 3]? :=
  flip_source_selection.1 String (scenarioFlip 0 (1 / 2) ⟨[(0, 2)], 0, lerp⟩) emptyStateSet
    rfl rfl (by norm_num [scenarioFlip])
    (by
      rw [scenarioFlip_getInputValue _ _ _ (by norm_num) (by norm_num)]
      norm_num [inIntRange, scenarioFlip])

/-! ### KeyframeController -/

/-- C11. With an input bound, `KeyframeController::operator()` chooses the
rotation by strict priority: the quaternion sample at `t` if the quaternion
stream is non-empty (whatever the X/Y/Z streams hold); otherwise
`getXYZRotation(t)` if any of the X/Y/Z streams is non-empty; otherwise the
node's rest rotation.  After the rotation it writes the scale sample iff the
scale stream is non-empty and then the translation sample iff the translation
stream is non-empty, and nothing else. -/
theorem keyframe_write_priority {Q M : Type} [Mul Q] (makeRotate : ℚ → Axis → Q)
    (c : KeyframeController Q) (node : MatrixTransform Q M) (hin : c.hasInput = true) :
    (KeyframeController.operator makeRotate c node).mRotationScale = node.mRotationScale ∧
    (KeyframeController.operator makeRotate c node).writes
      = node.writes
        ++ [if c.mRotations.empty = false then
              TransformWrite.setRotationQuat (c.mRotations.interpKey c.getInputValue)
            else if c.mXRotations.empty = false ∨ c.mYRotations.empty = false
                ∨ c.mZRotations.empty = false then
              TransformWrite.setRotationQuat (c.getXYZRotation makeRotate c.getInputValue)
            else TransformWrite.setRotationMatrix node.mRotationScale]
        ++ (if c.mScales.empty = false then
              [TransformWrite.setScale (c.mScales.interpKey c.getInputValue)]
            else [])
        ++ (if c.mTranslations.empty = false then
              [TransformWrite.setTranslation (c.mTranslations.interpKey c.getInputValue)]
            else []) := by
  unfold KeyframeController.operator
  rw [if_pos hin]
  by_cases hq : c.mRotations.empty = false <;>
  by_cases hxyz : c.mXRotations.empty = false ∨ c.mYRotations.empty = false
      ∨ c.mZRotations.empty = false <;>
  by_cases hs : c.mScales.empty = false <;>
  by_cases ht : c.mTranslations.empty = false <;>
  simp only [hq, hxyz, hs, ht, if_true, if_false, MatrixTransform.setRotationQuat,
    MatrixTransform.setRotationMatrix, MatrixTransform.setScale, MatrixTransform.setTranslation,
    List.append_nil, List.append_assoc, and_self, reduceCtorEq]

/-- Witness for C11: a controller whose quaternion, X-rotation and scale streams
are non-empty and whose translation stream is empty, on a node with no earlier
writes: the quaternion sample is written (not the X/Y/Z composition), then the
scale, and no translation. -/
theorem keyframe_write_priority_witness :
    (KeyframeController.operator wordRotate exampleKeyframe exampleNode).writes
      = [TransformWrite.setRotationQuat (wordRotate 1 Axis.Z), TransformWrite.setScale 3] :=
  (keyframe_write_priority wordRotate exampleKeyframe exampleNode rfl).2.trans
    (by norm_num [exampleKeyframe, exampleNode, ValueInterpolator.empty,
      ValueInterpolator.interpKey, Controller.getInputValue, ControllerFunction.calculate])

/-- C12. For every axis-order tag and every time `t`, `getXYZRotation(t)` is the
product of the per-axis rotations in exactly the tagged order, where each angle
is the corresponding stream sampled at `t`, or 0 when that stream is empty, and
the repeated axis of a mixed order carries the same angle in both slots. -/
theorem getXYZRotation_tagged_order {Q : Type} [Mul Q] (makeRotate : ℚ → Axis → Q)
    (c : KeyframeController Q) (t : ℚ) :
    (c.mAxisOrder = AxisOrder.Order_XYZ → c.getXYZRotation makeRotate t
      = makeRotate (if c.mXRotations.empty = true then 0 else c.mXRotations.interpKey t) Axis.X
        * makeRotate (if c.mYRotations.empty = true then 0 else c.mYRotations.interpKey t) Axis.Y
        * makeRotate (if c.mZRotations.empty = true then 0 else c.mZRotations.interpKey t) Axis.Z) ∧
    (c.mAxisOrder = AxisOrder.Order_XZY → c.getXYZRotation makeRotate t
      = makeRotate (if c.mXRotations.empty = true then 0 else c.mXRotations.interpKey t) Axis.X
        * makeRotate (if c.mZRotations.empty = true then 0 else c.mZRotations.interpKey t) Axis.Z
        * makeRotate (if c.mYRotations.empty = true then 0 else c.mYRotations.interpKey t) Axis.Y) ∧
    (c.mAxisOrder = AxisOrder.Order_YZX → c.getXYZRotation makeRotate t
      = makeRotate (if c.mYRotations.empty = true then 0 else c.mYRotations.interpKey t) Axis.Y
        * makeRotate (if c.mZRotations.empty = true then 0 else c.mZRotations.interpKey t) Axis.Z
        * makeRotate (if c.mXRotations.empty = true then 0 else c.mXRotations.interpKey t) Axis.X) ∧
    (c.mAxisOrder = AxisOrder.Order_YXZ → c.getXYZRotation makeRotate t
      = makeRotate (if c.mYRotations.empty = true then 0 else c.mYRotations.interpKey t) Axis.Y
        * makeRotate (if c.mXRotations.empty = true then 0 else c.mXRotations.interpKey t) Axis.X
        * makeRotate (if c.mZRotations.empty = true then 0 else c.mZRotations.interpKey t) Axis.Z) ∧
    (c.mAxisOrder = AxisOrder.Order_ZXY → c.getXYZRotation makeRotate t
      = makeRotate (if c.mZRotations.empty = true then 0 else c.mZRotations.interpKey t) Axis.Z
        * makeRotate (if c.mXRotations.empty = true then 0 else c.mXRotations.interpKey t) Axis.X
        * makeRotate (if c.mYRotations.empty = true then 0 else c.mYRotations.interpKey t) Axis.Y) ∧
    (c.mAxisOrder = AxisOrder.Order_ZYX → c.getXYZRotation makeRotate t
      = makeRotate (if c.mZRotations.empty = true then 0 else c.mZRotations.interpKey t) Axis.Z
        * makeRotate (if c.mYRotations.empty = true then 0 else c.mYRotations.interpKey t) Axis.Y
        * makeRotate (if c.mXRotations.empty = true then 0 else c.mXRotations.interpKey t) Axis.X) ∧
    (c.mAxisOrder = AxisOrder.Order_XYX → c.getXYZRotation makeRotate t
      = makeRotate (if c.mXRotations.empty = true then 0 else c.mXRotations.interpKey t) Axis.X
        * makeRotate (if c.mYRotations.empty = true then 0 else c.mYRotations.interpKey t) Axis.Y
        * makeRotate (if c.mXRotations.empty = true then 0 else c.mXRotations.interpKey t) Axis.X) ∧
    (c.mAxisOrder = AxisOrder.Order_YZY → c.getXYZRotation makeRotate t
      = makeRotate (if c.mYRotations.empty = true then 0 else c.mYRotations.interpKey t) Axis.Y
        * makeRotate (if c.mZRotations.empty = true then 0 else c.mZRotations.interpKey t) Axis.Z
        * makeRotate (if c.mYRotations.empty = true then 0 else c.mYRotations.interpKey t) Axis.Y) ∧
    (c.mAxisOrder = AxisOrder.Order_ZXZ → c.getXYZRotation makeRotate t
      = makeRotate (if c.mZRotations.empty = true then 0 else c.mZRotations.interpKey t) Axis.Z
        * makeRotate (if c.mXRotations.empty = true then 0 else c.mXRotations.interpKey t) Axis.X
        * makeRotate (if c.mZRotations.empty = true then 0 else c.mZRotations.interpKey t) Axis.Z) := by
  have hx : (if c.mXRotations.empty = false then c.mXRotations.interpKey t else 0)
      = (if c.mXRotations.empty = true then 0 else c.mXRotations.interpKey t) := by
    cases c.mXRotations.empty <;> simp
  have hy : (if c.mYRotations.empty = false then c.mYRotations.interpKey t else 0)
      = (if c.mYRotations.empty = true then 0 else c.mYRotations.interpKey t) := by
    cases c.mYRotations.empty <;> simp
  have hz : (if c.mZRotations.empty = false then c.mZRotations.interpKey t else 0)
      = (if c.mZRotations.empty = true then 0 else c.mZRotations.interpKey t) := by
    cases c.mZRotations.empty <;> simp
  refine ⟨?_, ?_, ?_, ?_, ?_, ?_, ?_, ?_, ?_⟩ <;>
  · intro horder
    simp only [KeyframeController.getXYZRotation, horder, hx, hy, hz]

/-- Witness for C12: order `XYX` with an X stream sampling 2, an empty Y stream
and a Z stream sampling 5, over word quaternions: the result is the word
`X(2) Y(0) X(2)`; the Z sample does not occur and the X angle is repeated. -/
theorem getXYZRotation_tagged_order_witness :
    KeyframeController.getXYZRotation wordRotate exampleMixedOrder 1
      = wordRotate 2 Axis.X * wordRotate 0 Axis.Y * wordRotate 2 Axis.X :=
  ((getXYZRotation_tagged_order wordRotate exampleMixedOrder 1).2.2.2.2.2.2.1 rfl).trans
    (by norm_num [exampleMixedOrder, ValueInterpolator.empty, ValueInterpolator.interpKey,
      noInterpolator])

/-! ### GeomMorpherController -/

theorem MorphGeometry.step_targets (node : MorphGeometry) (i : ℕ) (val : ℚ) :
    (if node.getWeight i ≠ val then (node.setWeight i val).dirty else node).mMorphTargets
      = node.mMorphTargets.set i val := by
  by_cases h : node.getWeight i = val
  · rw [if_neg (not_not.mpr h)]
    unfold MorphGeometry.getWeight at h
    by_cases hi : i < node.mMorphTargets.length
    · rw [List.getD_eq_getElem _ _ hi] at h
      apply List.ext_getElem?
      intro j
      rw [List.getElem?_set]
      by_cases hij : i = j
      · rw [if_pos hij, if_pos hi, ← hij, List.getElem?_eq_getElem hi, h]
      · rw [if_neg hij]
    · rw [List.set_eq_of_length_le (not_lt.mp hi)]
  · rw [if_pos h]
    rfl

theorem MorphGeometry.step_dirty (node : MorphGeometry) (i : ℕ) (val : ℚ) :
    (if node.getWeight i ≠ val then (node.setWeight i val).dirty else node).mDirty = true
      ↔ node.mDirty = true ∨ node.getWeight i ≠ val := by
  by_cases h : node.getWeight i = val
  · rw [if_neg (not_not.mpr h)]
    simp [h]
  · rw [if_pos h]
    simp [MorphGeometry.dirty, h]

theorem GeomMorpherController.loop_spec (c : GeomMorpherController) (input : ℚ) :
    ∀ (rest : List FloatInterpolator) (i : ℕ) (node : MorphGeometry),
      (∀ j, j < i ∨ i + rest.length ≤ j →
        (GeomMorpherController.loop c input i rest node).mMorphTargets[j]?
          = node.mMorphTargets[j]?) ∧
      (∀ k it, rest[k]? = some it → i + k < node.mMorphTargets.length →
        (GeomMorpherController.loop c input i rest node).mMorphTargets[i + k]?
          = some (c.val input (i + k) it)) ∧
      ((GeomMorpherController.loop c input i rest node).mDirty = true
        ↔ node.mDirty = true
          ∨ ∃ k it, rest[k]? = some it ∧ node.getWeight (i + k) ≠ c.val input (i + k) it) := by
  intro rest
  induction rest with
  | nil =>
    intro i node
    simp [GeomMorpherController.loop]
  | cons it rest ih =>
    intro i node
    have htargets := node.step_targets i (c.val input i it)
    have hdirty := node.step_dirty i (c.val input i it)
    have hloop : GeomMorpherController.loop c input i (it :: rest) node
        = GeomMorpherController.loop c input (i + 1) rest
            (if node.getWeight i ≠ c.val input i it then
              (node.setWeight i (c.val input i it)).dirty else node) := rfl
    rw [hloop]
    generalize (if node.getWeight i ≠ c.val input i it then
      (node.setWeight i (c.val input i it)).dirty else node) = node1 at htargets hdirty ⊢
    obtain ⟨ihb, ihc, ihd⟩ := ih (i + 1) node1
    have hweight : ∀ j, i ≠ j → node1.getWeight j = node.getWeight j := by
      intro j hj
      unfold MorphGeometry.getWeight
      rw [htargets, List.getD_eq_getElem?_getD, List.getD_eq_getElem?_getD,
        List.getElem?_set_ne hj]
    refine ⟨?_, ?_, ?_⟩
    · intro j hj
      simp only [List.length_cons] at hj
      rw [ihb j (by omega), htargets, List.getElem?_set_ne (by omega)]
    · intro k it' hk hlt
      cases k with
      | zero =>
        simp only [List.getElem?_cons_zero, Option.some.injEq] at hk
        simp only [Nat.add_zero] at hlt ⊢
        rw [ihb i (Or.inl (Nat.lt_succ_self i)), htargets, ← hk]
        exact List.getElem?_set_eq_of_lt _ hlt
      | succ k =>
        simp only [List.getElem?_cons_succ] at hk
        have hidx : i + (k + 1) = i + 1 + k := by omega
        rw [hidx] at hlt ⊢
        apply ihc k it' hk
        rw [htargets, List.length_set]
        exact hlt
    · rw [ihd, hdirty]
      constructor
      · rintro ((hd | h0) | ⟨k, it', hk, hne⟩)
        · exact Or.inl hd
        · exact Or.inr ⟨0, it, by simp, by simpa using h0⟩
        · refine Or.inr ⟨k + 1, it', by simpa using hk, ?_⟩
          have hidx : i + (k + 1) = i + 1 + k := by omega
          rw [hidx, ← hweight (i + 1 + k) (by omega)]
          exact hne
      · rintro (hd | ⟨k, it', hk, hne⟩)
        · exact Or.inl (Or.inl hd)
        · cases k with
          | zero =>
            simp only [List.getElem?_cons_zero, Option.some.injEq] at hk
            simp only [Nat.add_zero] at hne
            rw [← hk] at hne
            exact Or.inl (Or.inr hne)
          | succ k =>
            simp only [List.getElem?_cons_succ] at hk
            refine Or.inr ⟨k, it', hk, ?_⟩
            have hidx : i + (k + 1) = i + 1 + k := by omega
            rw [hidx, ← hweight (i + 1 + k) (by omega)] at hne
            exact hne

theorem GeomMorpherController.val_eq (c : GeomMorpherController) (input : ℚ) (i : ℕ)
    (it : FloatInterpolator) :
    c.val input i it
      = if it.empty = true then 0
        else it.interpKey input * (if i < c.mWeights.length then c.mWeights.getD i 1 else 1) := by
  unfold GeomMorpherController.val
  cases it.empty
  · by_cases hi : i < c.mWeights.length <;> simp [hi]
  · simp

theorem GeomMorpherController.operator_spec (c : GeomMorpherController) (node : MorphGeometry)
    (hin : c.hasInput = true) (hlen : c.mKeyFrames.length ≤ node.mMorphTargets.length) :
    (∀ i it, 1 ≤ i → c.mKeyFrames[i]? = some it →
      (c.operator node).mMorphTargets[i]? = some (c.val c.getInputValue i it) ∧
      c.val c.getInputValue i it
        = if it.empty = true then 0
          else it.interpKey c.getInputValue
            * (if i < c.mWeights.length then c.mWeights.getD i 1 else 1)) ∧
    (c.operator node).mMorphTargets[0]? = node.mMorphTargets[0]? ∧
    (∀ j, c.mKeyFrames.length ≤ j →
      (c.operator node).mMorphTargets[j]? = node.mMorphTargets[j]?) ∧
    ((c.operator node).mDirty = true
      ↔ node.mDirty = true
        ∨ ∃ i it, 1 ≤ i ∧ c.mKeyFrames[i]? = some it
          ∧ node.getWeight i ≠ c.val c.getInputValue i it) := by
  unfold GeomMorpherController.operator
  rw [if_pos hin]
  by_cases hsmall : c.mKeyFrames.length ≤ 1
  · rw [if_pos hsmall]
    have hnone : ∀ i it, 1 ≤ i → c.mKeyFrames[i]? = some it → False := by
      intro i it hi hk
      have hlt : i < c.mKeyFrames.length := (List.getElem?_eq_some.mp hk).1
      omega
    refine ⟨fun i it hi hk => (hnone i it hi hk).elim, rfl, fun _ _ => rfl, ?_⟩
    constructor
    · exact Or.inl
    · rintro (hd | ⟨i, it, hi, hk, _⟩)
      · exact hd
      · exact (hnone i it hi hk).elim
  · rw [if_neg hsmall]
    cases hK : c.mKeyFrames with
    | nil => rw [hK] at hsmall; simp at hsmall
    | cons base rest =>
      rw [hK] at hlen
      simp only [List.tail_cons, List.length_cons] at hlen ⊢
      obtain ⟨hb, hc, hd⟩ := c.loop_spec c.getInputValue rest 1 node
      refine ⟨?_, hb 0 (Or.inl Nat.one_pos), fun j hj => hb j (Or.inr (by omega)), ?_⟩
      · intro i it hi hk
        obtain ⟨k, rfl⟩ : ∃ k, i = k + 1 := ⟨i - 1, by omega⟩
        simp only [List.getElem?_cons_succ] at hk
        have hlt : k < rest.length := (List.getElem?_eq_some.mp hk).1
        have hidx : k + 1 = 1 + k := by omega
        refine ⟨?_, c.val_eq _ _ _⟩
        rw [hidx]
        exact hc k it hk (by omega)
      · rw [hd]
        constructor
        · rintro (hd | ⟨k, it, hk, hne⟩)
          · exact Or.inl hd
          · refine Or.inr ⟨1 + k, it, by omega, ?_, hne⟩
            have hidx : 1 + k = k + 1 := by omega
            rw [hidx, List.getElem?_cons_succ]
            exact hk
        · rintro (hd | ⟨i, it, hi, hk, hne⟩)
          · exact Or.inl hd
          · obtain ⟨k, rfl⟩ : ∃ k, i = k + 1 := ⟨i - 1, by omega⟩
            simp only [List.getElem?_cons_succ] at hk
            have hidx : k + 1 = 1 + k := by omega
            rw [hidx] at hne
            exact Or.inr ⟨k, it, hk, hne⟩

/-- C13. With an input bound, `n = |K|` key-frame interpolators and at least `n`
morph targets, after `GeomMorpherController::operator()` every morph target
`i ∈ [1, n)` has the weight
`val_i = (K[i] empty ? 0 : K[i].interp(t) * (i < |W| ? W[i] : 1))`, morph target 0
and every target from `n` on keep their weights, and the call flags the geometry
dirty iff the weight of some target `i ∈ [1, n)` differed from `val_i` before the
call: the geometry is dirty afterwards iff it was dirty before or such a target
exists, and a geometry that was not dirty is dirty afterwards iff such a target
exists. -/
theorem morph_weights_written (c : GeomMorpherController) (node : MorphGeometry)
    (hin : c.hasInput = true) (hlen : c.mKeyFrames.length ≤ node.mMorphTargets.length) :
    (∀ i it, 1 ≤ i → c.mKeyFrames[i]? = some it →
      (c.operator node).mMorphTargets[i]? = some (c.val c.getInputValue i it) ∧
      c.val c.getInputValue i it
        = if it.empty = true then 0
          else it.interpKey c.getInputValue
            * (if i < c.mWeights.length then c.mWeights.getD i 1 else 1)) ∧
    (c.operator node).mMorphTargets[0]? = node.mMorphTargets[0]? ∧
    (∀ j, c.mKeyFrames.length ≤ j →
      (c.operator node).mMorphTargets[j]? = node.mMorphTargets[j]?) ∧
    ((c.operator node).mDirty = true
      ↔ node.mDirty = true
        ∨ ∃ i it, 1 ≤ i ∧ c.mKeyFrames[i]? = some it
          ∧ node.getWeight i ≠ c.val c.getInputValue i it) ∧
    ((c.operator { node with mDirty := false }).mDirty = true
      ↔ ∃ i it, 1 ≤ i ∧ c.mKeyFrames[i]? = some it
          ∧ node.getWeight i ≠ c.val c.getInputValue i it) := by
  obtain ⟨h1, h2, h3, h4⟩ := c.operator_spec node hin hlen
  refine ⟨h1, h2, h3, h4, ?_⟩
  have h5 := (c.operator_spec { node with mDirty := false } hin hlen).2.2.2
  rw [h5]
  constructor
  · rintro (hd | h)
    · exact Bool.noConfusion hd
    · exact h
  · exact Or.inr

/-- Witness for C13: key frames `[base, sampling 2, empty]`, weights `[1, 3]`,
targets `[5, 0, 4]`: target 1 gets `2 * 3 = 6`, target 2 gets 0, target 0 keeps 5,
and the geometry becomes dirty. -/
theorem morph_weights_written_witness :
    (exampleMorpher.operator exampleGeometry).mMorphTargets[1]? = some 6 ∧
    (exampleMorpher.operator exampleGeometry).mMorphTargets[2]? = some 0 ∧
    (exampleMorpher.operator exampleGeometry).mMorphTargets[0]? = some 5 ∧
    (exampleMorpher.operator exampleGeometry).mDirty = true := by
  have h := morph_weights_written exampleMorpher exampleGeometry rfl (by decide)
  have hinput : exampleMorpher.getInputValue = 0 := by
    norm_num [exampleMorpher, Controller.getInputValue, ControllerFunction.calculate]
  refine ⟨?_, ?_, ?_, ?_⟩
  · rw [(h.1 1 ⟨[(0, 2)], 0, lerp⟩ (le_refl 1) rfl).1, hinput]
    norm_num [GeomMorpherController.val, exampleMorpher, ValueInterpolator.empty,
      ValueInterpolator.interpKey]
  · rw [(h.1 2 noInterpolator (by norm_num) rfl).1, hinput]
    norm_num [GeomMorpherController.val, noInterpolator, ValueInterpolator.empty]
  · rw [h.2.1]
    rfl
  · rw [h.2.2.2.1, hinput]
    refine Or.inr ⟨1, ⟨[(0, 2)], 0, lerp⟩, le_refl 1, rfl, ?_⟩
    norm_num [GeomMorpherController.val, exampleMorpher, exampleGeometry,
      MorphGeometry.getWeight, ValueInterpolator.empty, ValueInterpolator.interpKey]

/-! ### UVController -/

theorem UVController.matrix_entries (c : UVController) (value : ℚ) :
    c.matrix value
      = fun i j =>
          if i = 0 then (if j = 0 then c.mUScale.interpKey value else 0)
          else if i = 1 then (if j = 1 then c.mVScale.interpKey value else 0)
          else if i = 2 then (if j = 2 then 1 else 0)
          else if j = 0 then
            1 / 2 - 1 / 2 * c.mUScale.interpKey value - c.mUTrans.interpKey value
          else if j = 1 then
            1 / 2 - 1 / 2 * c.mVScale.interpKey value - c.mVTrans.interpKey value
          else if j = 2 then 0
          else 1 := by
  funext i j
  fin_cases i <;> fin_cases j <;>
    simp [UVController.matrix, Matrixf.translate, Matrixf.preMultScale,
      Matrixf.preMultTranslate, Matrixf.getTrans, Matrixf.setTrans] <;> ring_nf

/-- C14. The matrix `UVController::apply` emits scales about the UV centre
`(1/2, 1/2)` and then translates by `(-uTrans, -vTrans)`: it maps every point
`(u, v)` to `(uScale * (u - 1/2) + 1/2 - uTrans, vScale * (v - 1/2) + 1/2 - vTrans)`;
with `uTrans = vTrans = 0` and `uScale = vScale = 1` it is the identity; and with
an input bound and a texture unit listed it is the matrix written to the shared
texture-matrix attribute. -/
theorem uv_matrix_scale_about_centre (c : UVController) (value : ℚ) :
    (∀ u v : ℚ, (c.matrix value).mapUV u v
      = (c.mUScale.interpKey value * (u - 1 / 2) + 1 / 2 - c.mUTrans.interpKey value,
          c.mVScale.interpKey value * (v - 1 / 2) + 1 / 2 - c.mVTrans.interpKey value)) ∧
    (c.mUTrans.interpKey value = 0 → c.mVTrans.interpKey value = 0 →
      c.mUScale.interpKey value = 1 → c.mVScale.interpKey value = 1 →
      c.matrix value = Matrixf.identity) ∧
    (∀ texMat : Matrixf, c.hasInput = true → c.mTextureUnits.isEmpty = false →
      c.apply texMat = c.matrix c.getInputValue) := by
  refine ⟨fun u v => ?_, fun hut hvt hus hvs => ?_, fun texMat hin hunits => ?_⟩
  · have h30 : ((3 : Fin 4) = 0) = False := by decide
    have h31 : ((3 : Fin 4) = 1) = False := by decide
    have h32 : ((3 : Fin 4) = 2) = False := by decide
    have h10 : ((1 : Fin 4) = 0) = False := by decide
    have h01 : ((0 : Fin 4) = 1) = False := by decide
    rw [c.matrix_entries value]
    simp only [Matrixf.mapUV, h30, h31, h32, h10, h01, if_true, if_false, Prod.mk.injEq]
    constructor <;> ring
  · rw [c.matrix_entries value, hut, hvt, hus, hvs]
    funext i j
    fin_cases i <;> fin_cases j <;> simp [Matrixf.identity]
  · unfold UVController.apply
    rw [if_pos hin]
    simp only [hunits, if_true]

/-- Witness for C14: translation samples `(1/4, 1/8)` and scale samples `(2, 4)`:
the emitted matrix sends the centre `(1/2, 1/2)` to `(1/4, 3/8)` and the corner
`(1, 1)` to `(5/4, 19/8)`. -/
theorem uv_matrix_scale_about_centre_witness :
    (exampleUV.matrix 0).mapUV (1 / 2) (1 / 2) = (1 / 4, 3 / 8) ∧
    (exampleUV.matrix 0).mapUV 1 1 = (5 / 4, 19 / 8) := by
  have h := (uv_matrix_scale_about_centre exampleUV 0).1
  constructor
  · rw [h]
    norm_num [exampleUV, ValueInterpolator.interpKey]
  · rw [h]
    norm_num [exampleUV, ValueInterpolator.interpKey]

/-! ### ParticleSystemController -/

/-- C16. When an input is bound, `ParticleSystemController::operator()` sets the
particle system unfrozen and the processor enabled iff
`emitStart ≤ t < emitStop`, `t` being the mapped input time; when no input is
bound it sets the particle system frozen and leaves the enabled flag as it
was. -/
theorem particle_emitter_gate (c : ParticleSystemController) (node : ParticleProcessor) :
    (c.hasInput = true →
      (c.operator node).frozen = false ∧
      ((c.operator node).enabled = true
        ↔ c.mEmitStart ≤ c.getInputValue ∧ c.getInputValue < c.mEmitStop)) ∧
    (c.hasInput = false →
      (c.operator node).frozen = true ∧ (c.operator node).enabled = node.enabled) := by
  constructor
  · intro hin
    unfold ParticleSystemController.operator
    rw [if_pos hin]
    simp
  · intro hin
    unfold ParticleSystemController.operator
    rw [if_neg (by simp [hin])]
    simp

/-- Witness for C16: emission window `[1, 3)`.  At input 1 (the start) the
processor is enabled, at input 3 (the stop) it is disabled, both unfrozen; with
no input the system is frozen and the enabled flag is kept. -/
theorem particle_emitter_gate_witness :
    (exampleParticles (some 1)).operator ⟨true, false⟩ = ⟨false, true⟩ ∧
    (exampleParticles (some 3)).operator ⟨true, true⟩ = ⟨false, false⟩ ∧
    (exampleParticles none).operator ⟨false, true⟩ = ⟨true, true⟩ := by
  have h1 := (particle_emitter_gate (exampleParticles (some 1)) ⟨true, false⟩).1 rfl
  have h3 := (particle_emitter_gate (exampleParticles (some 3)) ⟨true, true⟩).1 rfl
  have h0 := (particle_emitter_gate (exampleParticles none) ⟨false, true⟩).2 rfl
  have v1 : (exampleParticles (some 1)).getInputValue = 1 := by
    norm_num [exampleParticles, Controller.getInputValue, ControllerFunction.calculate]
  have v3 : (exampleParticles (some 3)).getInputValue = 3 := by
    norm_num [exampleParticles, Controller.getInputValue, ControllerFunction.calculate]
  have e1 : ((exampleParticles (some 1)).operator ⟨true, false⟩).enabled = true := by
    rw [h1.2, v1]; norm_num [exampleParticles]
  have e3 : ((exampleParticles (some 3)).operator ⟨true, true⟩).enabled = false := by
    rw [← Bool.not_eq_true, h3.2, v3]; norm_num [exampleParticles]
  refine ⟨?_, ?_, ?_⟩
  · cases h : (exampleParticles (some 1)).operator ⟨true, false⟩ with
    | mk frozen enabled =>
      rw [h] at h1 e1
      simp only at h1 e1
      rw [h1.1, e1]
  · cases h : (exampleParticles (some 3)).operator ⟨true, true⟩ with
    | mk frozen enabled =>
      rw [h] at h3 e3
      simp only at h3 e3
      rw [h3.1, e3]
  · cases h : (exampleParticles none).operator ⟨false, true⟩ with
    | mk frozen enabled =>
      rw [h] at h0
      simp only at h0
      rw [h0.1, h0.2]

/-! ### MaterialColorController and AlphaController -/

/-- C17. With an input bound, `MaterialColorController::apply` writes the sampled
RGB into the red, green and blue components of exactly the channel its tag
selects (Diffuse, Specular, Emissive or Ambient), keeps that channel's alpha and
leaves the three other channels unchanged; a tag outside the four is treated as
Ambient. -/
theorem material_color_channel (c : MaterialColorController) (mat : Material)
    (hin : c.hasInput = true) :
    (c.mTargetColor = TargetColor.Ambient →
      c.apply mat = { mat with ambient :=
        ⟨(c.mData.interpKey c.getInputValue).1, (c.mData.interpKey c.getInputValue).2.1,
          (c.mData.interpKey c.getInputValue).2.2, mat.ambient.a⟩ }) ∧
    (c.mTargetColor = TargetColor.Diffuse →
      c.apply mat = { mat with diffuse :=
        ⟨(c.mData.interpKey c.getInputValue).1, (c.mData.interpKey c.getInputValue).2.1,
          (c.mData.interpKey c.getInputValue).2.2, mat.diffuse.a⟩ }) ∧
    (c.mTargetColor = TargetColor.Specular →
      c.apply mat = { mat with specular :=
        ⟨(c.mData.interpKey c.getInputValue).1, (c.mData.interpKey c.getInputValue).2.1,
          (c.mData.interpKey c.getInputValue).2.2, mat.specular.a⟩ }) ∧
    (c.mTargetColor = TargetColor.Emissive →
      c.apply mat = { mat with emission :=
        ⟨(c.mData.interpKey c.getInputValue).1, (c.mData.interpKey c.getInputValue).2.1,
          (c.mData.interpKey c.getInputValue).2.2, mat.emission.a⟩ }) ∧
    (∀ tag, c.mTargetColor = TargetColor.Other tag →
      c.apply mat = { mat with ambient :=
        ⟨(c.mData.interpKey c.getInputValue).1, (c.mData.interpKey c.getInputValue).2.1,
          (c.mData.interpKey c.getInputValue).2.2, mat.ambient.a⟩ }) := by
  refine ⟨?_, ?_, ?_, ?_, ?_⟩
  · intro htag
    simp only [MaterialColorController.apply, hin, htag, if_true, Vec4f.set]
  · intro htag
    simp only [MaterialColorController.apply, hin, htag, if_true, Vec4f.set]
  · intro htag
    simp only [MaterialColorController.apply, hin, htag, if_true, Vec4f.set]
  · intro htag
    simp only [MaterialColorController.apply, hin, htag, if_true, Vec4f.set]
  · intro tag htag
    simp only [MaterialColorController.apply, hin, htag, if_true, Vec4f.set]

/-- Witness for C17: the tag Specular and the sample `(1/10, 2/10, 3/10)` on the
example material: only the specular RGB changes, its alpha 1 is kept. -/
theorem material_color_channel_witness :
    (exampleMaterialColor TargetColor.Specular).apply exampleMaterial
      = ⟨⟨1 / 2, 1 / 2, 1 / 2, 1⟩, ⟨1 / 5, 2 / 5, 3 / 5, 1⟩, ⟨1 / 10, 2 / 10, 3 / 10, 1⟩,
          ⟨1 / 2, 1 / 2, 1 / 2, 1⟩⟩ :=
  ((material_color_channel (exampleMaterialColor TargetColor.Specular) exampleMaterial rfl).2.2.1
      rfl).trans
    (by norm_num [exampleMaterialColor, exampleMaterial, ValueInterpolator.interpKey,
      Controller.getInputValue, ControllerFunction.calculate])

/-- C18. With an input bound, after `AlphaController::apply` the diffuse alpha of
the material is the interpolator's sample at the mapped time, the diffuse red,
green and blue are those before the call, and the other colours are unchanged;
for the linear key list `[(0, 0), (1, 1)]` and `t = 1/4` the diffuse alpha
becomes `1/4`. -/
theorem alpha_sets_diffuse_alpha :
    (∀ (c : AlphaController) (mat : Material), c.hasInput = true →
      (c.apply mat).diffuse.a = c.mData.interpKey c.getInputValue ∧
      (c.apply mat).diffuse.r = mat.diffuse.r ∧
      (c.apply mat).diffuse.g = mat.diffuse.g ∧
      (c.apply mat).diffuse.b = mat.diffuse.b ∧
      (c.apply mat).ambient = mat.ambient ∧
      (c.apply mat).specular = mat.specular ∧
      (c.apply mat).emission = mat.emission) ∧
    (scenarioAlpha (1 / 4)).getInputValue = 1 / 4 ∧
    ((scenarioAlpha (1 / 4)).apply exampleMaterial).diffuse = ⟨1 / 5, 2 / 5, 3 / 5, 1 / 4⟩ := by
  have hgeneral : ∀ (c : AlphaController) (mat : Material), c.hasInput = true →
      c.apply mat
        = { mat with diffuse := { mat.diffuse with a := c.mData.interpKey c.getInputValue } } := by
    intro c mat hin
    simp only [AlphaController.apply, hin, if_true]
  have hinput : (scenarioAlpha (1 / 4)).getInputValue = 1 / 4 := by
    norm_num [scenarioAlpha, Controller.getInputValue, ControllerFunction.calculate]
  refine ⟨fun c mat hin => ?_, hinput, ?_⟩
  · rw [hgeneral c mat hin]
    exact ⟨rfl, rfl, rfl, rfl, rfl, rfl, rfl⟩
  · rw [hgeneral (scenarioAlpha (1 / 4)) exampleMaterial rfl, hinput]
    norm_num [scenarioAlpha, exampleMaterial, ValueInterpolator.interpKey,
      ValueInterpolator.bracket, lerp]

/-- Witness for C18: the same key list at `t = 3/4`: the diffuse alpha becomes
the sample, `3/4`. -/
theorem alpha_sets_diffuse_alpha_witness :
    ((scenarioAlpha (3 / 4)).apply exampleMaterial).diffuse.a = 3 / 4 := by
  have hinput : (scenarioAlpha (3 / 4)).getInputValue = 3 / 4 := by
    norm_num [scenarioAlpha, Controller.getInputValue, ControllerFunction.calculate]
  rw [(alpha_sets_diffuse_alpha.1 (scenarioAlpha (3 / 4)) exampleMaterial rfl).1, hinput]
  norm_num [scenarioAlpha, ValueInterpolator.interpKey, ValueInterpolator.bracket, lerp]

/-! ### FlipController: index bounds -/

theorem toSizeT_cast (i : ℤ) : (toSizeT i : ℤ) = i % 2 ^ 64 := by
  unfold toSizeT
  exact Int.toNat_of_nonneg (Int.emod_nonneg i (by norm_num))

/-- C19. `FlipController::apply` never indexes outside the texture list: for a
non-empty list of length `n`, the computed `curTexture` satisfies
`0 ≤ curTexture < n`, whatever integer the truncation produced (a negative one
included: the `int` operand of `%` is converted to `std::size_t`, that is taken
modulo `2^64`, before the remainder), and the texture written is an element of
the list; when the list is empty no texture is written. -/
theorem flip_index_in_bounds :
    (∀ (Tex : Type) (c : FlipController Tex), c.mTextures.isEmpty = false →
      0 ≤ c.curTexture ∧ c.curTexture < c.mTextures.length) ∧
    (∀ (i : ℤ) (n : ℕ), 0 < n →
      (toSizeT i : ℤ) = i % 2 ^ 64 ∧ 0 ≤ toSizeT i % n ∧ toSizeT i % n < n) ∧
    (∀ (Tex : Type) (c : FlipController Tex) (stateset : StateSet Tex),
      c.hasInput = true → c.mTextures.isEmpty = false →
      ∃ texture ∈ c.mTextures,
        (c.apply stateset).textureAttribute c.mTexSlot = some texture) ∧
    (∀ (Tex : Type) (c : FlipController Tex) (stateset : StateSet Tex),
      c.mTextures.isEmpty = true → c.apply stateset = stateset) := by
  have hlt : ∀ (Tex : Type) (c : FlipController Tex), c.mTextures.isEmpty = false →
      c.curTexture < c.mTextures.length := by
    intro Tex c hne
    have hpos : 0 < c.mTextures.length := List.length_pos.mpr (by simpa using hne)
    unfold FlipController.curTexture intModSize
    split <;> exact Nat.mod_lt _ hpos
  refine ⟨fun Tex c hne => ⟨Nat.zero_le _, hlt Tex c hne⟩,
    fun i n hn => ⟨toSizeT_cast i, Nat.zero_le _, Nat.mod_lt _ hn⟩,
    fun Tex c stateset hin hne => ?_,
    fun Tex c stateset hempty => c.apply_skipped stateset (Or.inr hempty)⟩
  refine ⟨c.mTextures.get ⟨c.curTexture, hlt Tex c hne⟩, List.get_mem _ _ _, ?_⟩
  rw [c.apply_written stateset hin hne]
  exact List.getElem?_eq_getElem (hlt Tex c hne)

/-- Witness for C19: textures `[A, B, C]`, `delta = 1/2`, sampled time `-3/2`:
the quotient -3 converts to `2^64 - 3` and the index `(2^64 - 3) mod 3 = 1` is
inside the list; the texture written is `B`. -/
theorem flip_index_in_bounds_witness :
    (scenarioFlip (-3 / 2) (1 / 2) noInterpolator).curTexture < 3 ∧
    ((scenarioFlip (-3 / 2) (1 / 2) noInterpolator).apply emptyStateSet).textureAttribute 0
      = some "B" :=
  ⟨(flip_index_in_bounds.1 String (scenarioFlip (-3 / 2) (1 / 2) noInterpolator) rfl).2, by
    rw [scenarioFlip_apply_delta (-3 / 2) (1 / 2) noInterpolator (-3) (by norm_num) (by norm_num)
      (by norm_num) (toInt_of_neg_eq _ (-3) (by norm_num) (by norm_num) (by norm_num))]
    rfl⟩

/-! ### Controllers without data -/

/-- C15, as stated, fails.  Three controllers built with neither an interpolator
block nor a data block, each with an input bound.  The visibility controller
finds its list empty, takes the value true and sets the node mask 5 to `~0`.  The
alpha controller samples the default value 0 of its empty interpolator and sets
the diffuse alpha 1 of the material to 0.  The keyframe controller finds every
rotation stream empty and calls `setRotation` with the node's rest rotation. -/
theorem missing_data_counterexample :
    (missingDataVis.mInterpolator.empty = true ∧ missingDataVis.mData = []) ∧
    missingDataVis.operator 5 = 2 ^ 32 - 1 ∧
    missingDataVis.operator 5 ≠ 5 ∧
    missingDataAlpha.mData.empty = true ∧
    (missingDataAlpha.apply exampleMaterial).diffuse.a = 0 ∧
    exampleMaterial.diffuse.a = 1 ∧
    missingDataAlpha.apply exampleMaterial ≠ exampleMaterial ∧
    (KeyframeController.operator wordRotate missingDataKeyframe exampleNode).writes
      = [TransformWrite.setRotationMatrix 7] ∧
    exampleNode.writes = [] := by
  have hvis : missingDataVis.operator 5 = 2 ^ 32 - 1 := by
    norm_num [missingDataVis, VisController.operator, VisController.calculate,
      ValueInterpolator.empty, Controller.hasInput]
  have halpha : (missingDataAlpha.apply exampleMaterial).diffuse.a = 0 := by
    norm_num [missingDataAlpha, AlphaController.apply, Controller.hasInput, noInterpolator,
      ValueInterpolator.interpKey]
  refine ⟨⟨rfl, rfl⟩, hvis, ?_, rfl, halpha, rfl, ?_, ?_, rfl⟩
  · rw [hvis]
    norm_num
  · intro h
    rw [h] at halpha
    norm_num [exampleMaterial] at halpha
  · norm_num [missingDataKeyframe, exampleNode, KeyframeController.operator,
      Controller.hasInput, ValueInterpolator.empty, noInterpolator,
      MatrixTransform.setRotationMatrix]

/-- C15, amended.  For a controller whose key sequences are all empty, a
per-frame evaluation with an input bound does the following.  Path: no write.
Keyframe: one write, the node's rest rotation, and no scale or translation.
Roll: a pre-multiplied rotation about Z of angle `default * dt * 60`, and
`mStartingTime` becomes the simulation time.  Alpha: the diffuse alpha becomes
the interpolator's default value.  MaterialColor: the RGB of the selected channel
becomes the interpolator's default colour, alpha kept.  Flip: a texture of the
list is written when the list is non-empty, nothing when it is empty.  Vis: the
node mask becomes `~0`. -/
theorem missing_data_effects :
    (∀ (Q M : Type) (c : PathController) (node : MatrixTransform Q M),
      c.mPath.empty = true ∨ c.mPercent.empty = true → c.operator node = node) ∧
    (∀ (Q M : Type) [Mul Q] (makeRotate : ℚ → Axis → Q) (c : KeyframeController Q)
      (node : MatrixTransform Q M),
      c.hasInput = true → c.mRotations.empty = true → c.mXRotations.empty = true →
      c.mYRotations.empty = true → c.mZRotations.empty = true → c.mScales.empty = true →
      c.mTranslations.empty = true →
      KeyframeController.operator makeRotate c node
        = node.setRotationMatrix node.mRotationScale) ∧
    (∀ (Q M : Type) (c : RollController) (simulationTime : ℚ) (node : MatrixTransform Q M),
      c.hasInput = true → c.mData.empty = true →
      c.operator simulationTime node
        = ({ c with mStartingTime := simulationTime },
            node.preMultRotate
              (c.mData.mDefaultVal * (simulationTime - c.mStartingTime) * 60) 0 0 1)) ∧
    (∀ (c : AlphaController) (mat : Material),
      c.hasInput = true → c.mData.empty = true →
      c.apply mat = { mat with diffuse := { mat.diffuse with a := c.mData.mDefaultVal } }) ∧
    (∀ (c : MaterialColorController) (mat : Material),
      c.hasInput = true → c.mData.empty = true →
      c.apply mat
        = match c.mTargetColor with
          | TargetColor.Diffuse => { mat with diffuse :=
              ⟨c.mData.mDefaultVal.1, c.mData.mDefaultVal.2.1, c.mData.mDefaultVal.2.2,
                mat.diffuse.a⟩ }
          | TargetColor.Specular => { mat with specular :=
              ⟨c.mData.mDefaultVal.1, c.mData.mDefaultVal.2.1, c.mData.mDefaultVal.2.2,
                mat.specular.a⟩ }
          | TargetColor.Emissive => { mat with emission :=
              ⟨c.mData.mDefaultVal.1, c.mData.mDefaultVal.2.1, c.mData.mDefaultVal.2.2,
                mat.emission.a⟩ }
          | _ => { mat with ambient :=
              ⟨c.mData.mDefaultVal.1, c.mData.mDefaultVal.2.1, c.mData.mDefaultVal.2.2,
                mat.ambient.a⟩ }) ∧
    (∀ (Tex : Type) (c : FlipController Tex) (stateset : StateSet Tex),
      c.hasInput = true → c.mData.empty = true →
      (c.mTextures.isEmpty = false →
        ∃ texture ∈ c.mTextures,
          (c.apply stateset).textureAttribute c.mTexSlot = some texture) ∧
      (c.mTextures.isEmpty = true → c.apply stateset = stateset)) ∧
    (∀ (c : VisController) (nodeMask : ℕ),
      c.hasInput = true → c.mInterpolator.empty = true → c.mData = [] →
      c.operator nodeMask = 2 ^ 32 - 1) := by
  refine ⟨?_, ?_, ?_, ?_, ?_, ?_, ?_⟩
  · intro Q M c node h
    unfold PathController.operator
    rw [if_pos]
    rcases h with h | h
    · exact Or.inl h
    · exact Or.inr (Or.inl h)
  · intro Q M _ makeRotate c node hin hq hx hy hz hs ht
    simp [KeyframeController.operator, hin, hq, hx, hy, hz, hs, ht]
  · intro Q M c simulationTime node hin hempty
    simp only [RollController.operator, hin, if_true, c.mData.interpKey_of_empty _ hempty]
  · intro c mat hin hempty
    simp only [AlphaController.apply, hin, if_true, c.mData.interpKey_of_empty _ hempty]
  · intro c mat hin hempty
    simp only [MaterialColorController.apply, hin, if_true,
      c.mData.interpKey_of_empty _ hempty, Vec4f.set]
  · intro Tex c stateset hin _
    refine ⟨fun hne => ?_, fun hempty => c.apply_skipped stateset (Or.inr hempty)⟩
    have hpos : 0 < c.mTextures.length := List.length_pos.mpr (by simpa using hne)
    have hlt : c.curTexture < c.mTextures.length := by
      unfold FlipController.curTexture intModSize
      split <;> exact Nat.mod_lt _ hpos
    refine ⟨c.mTextures.get ⟨c.curTexture, hlt⟩, List.get_mem _ _ _, ?_⟩
    rw [c.apply_written stateset hin hne]
    exact List.getElem?_eq_getElem hlt
  · intro c nodeMask hin hempty hdata
    simp [VisController.operator, VisController.calculate, hin, hempty, hdata]

/-- Witness for C15 amended: the keyframe controller without data on the example
node performs exactly one write, the rest rotation. -/
theorem missing_data_effects_witness :
    KeyframeController.operator wordRotate missingDataKeyframe exampleNode
      = exampleNode.setRotationMatrix exampleNode.mRotationScale :=
  missing_data_effects.2.1 WordQuat ℕ wordRotate missingDataKeyframe exampleNode
    rfl rfl rfl rfl rfl rfl rfl

end NifOsg

namespace MWWorld

/-! ### RefData -/

/-- C20, on the code.  A freshly constructed `RefData` is enabled, `enable()`
makes `isEnabled()` return true, and neither `enable()` nor `disable()` changes
the count or the handle; but `disable()` assigns `mEnabled = true`, so after
`disable()` on a fresh object (and on every object) `isEnabled()` still returns
true, where the claim has false. -/
theorem refData_disable_leaves_enabled :
    RefData.new.isEnabled = true ∧
    RefData.new.disable.isEnabled = true ∧
    (∀ r : RefData, r.disable.isEnabled = true) ∧
    (∀ r : RefData, r.enable.isEnabled = true) ∧
    (∀ r : RefData, r.enable.getCount = r.getCount ∧ r.enable.getHandle = r.getHandle ∧
      r.disable.getCount = r.getCount ∧ r.disable.getHandle = r.getHandle) :=
  ⟨rfl, rfl, fun _ => rfl, fun _ => rfl, fun _ => ⟨rfl, rfl, rfl, rfl⟩⟩

end MWWorld
